import Mathlib

/-!
Verification of the AugmentedChords tuner engine (`src/tuner.ts`).

Shallow embedding conventions:
* JavaScript `number` values carrying audio samples, frequencies and signal
  strengths are modelled as real numbers (`ℝ`).  The fixed note table is kept
  over `ℚ` (its entries are decimal literals) and cast into `ℝ` where the code
  does arithmetic on them.
* Timestamps (`Date.now()` milliseconds) are modelled as an explicit `ℤ`
  parameter `now` threaded into `processTunerAudioChunk`.
* The two places where the source can divide by exactly zero
  (`refineFrequencyEstimate`'s interpolation denominator and the percent-change
  smoothing divisor) follow IEEE-754 semantics, where `a / 0` is `±Infinity`
  (or `NaN` for `0 / 0`).  Those spots are modelled with the `JsNum` type below
  so that the non-finite outcomes of the source are visible.  The remaining
  divisions use total real division; where a divisor can still be zero (the
  empty frame's `0 / 0` RMS in `calculateSignalStrength`, the one-sample
  frame's window denominator in `applyHammingWindow`) the difference to the
  IEEE value is noted at the definition, and every branch whose direction
  depends on such a value encodes the IEEE truth value of the source's
  comparison explicitly.
* Calls of the source that do not return normally are modelled with
  `Except DspFailure`: `performFFT` on the empty input recurses on the empty
  even split without reaching its base case (the stack overflows), and on an
  odd length `> 1` its combine loop reads past the end of the recursive
  result and throws.  `detectPitch` propagates these, so its model
  distinguishes a returned value (`.ok`) from a crash (`.error`); the crash
  is reachable exactly for the empty frame, whose `NaN` signal strength
  passes the quiet gate (`NaN < VOLUME_THRESHOLD` is false).
* Arrays become `List ℝ`; a JavaScript out-of-range read yields `undefined`,
  and the only places that can read out of range compare the result with
  `undefined > v`, which is false; this is modelled with `List.getD _ 0`
  at spots where a `0` likewise never wins the comparison (noted inline).
-/

/-- `VOLUME_THRESHOLD` from tuner.ts. -/
noncomputable def VOLUME_THRESHOLD : ℝ := 0.03

/-- `DETECTION_HISTORY_SIZE` from tuner.ts. -/
def DETECTION_HISTORY_SIZE : ℕ := 10

/-- `MIN_FREQUENCY` from tuner.ts. -/
noncomputable def MIN_FREQUENCY : ℝ := 70

/-- `MAX_FREQUENCY` from tuner.ts. -/
noncomputable def MAX_FREQUENCY : ℝ := 350

/-- The fixed 88-entry note table `NOTE_FREQUENCIES` from tuner.ts, in source
(insertion) order, which is ascending pitch A0 … C8. -/
def NOTE_FREQUENCIES : List (String × ℚ) :=
  [("A0", 27.50), ("A#0", 29.14), ("B0", 30.87),
   ("C1", 32.70), ("C#1", 34.65), ("D1", 36.71), ("D#1", 38.89), ("E1", 41.20),
   ("F1", 43.65), ("F#1", 46.25), ("G1", 49.00), ("G#1", 51.91),
   ("A1", 55.00), ("A#1", 58.27), ("B1", 61.74),
   ("C2", 65.41), ("C#2", 69.30), ("D2", 73.42), ("D#2", 77.78), ("E2", 82.41),
   ("F2", 87.31), ("F#2", 92.50), ("G2", 98.00), ("G#2", 103.83),
   ("A2", 110.00), ("A#2", 116.54), ("B2", 123.47),
   ("C3", 130.81), ("C#3", 138.59), ("D3", 146.83), ("D#3", 155.56), ("E3", 164.81),
   ("F3", 174.61), ("F#3", 185.00), ("G3", 196.00), ("G#3", 207.65),
   ("A3", 220.00), ("A#3", 233.08), ("B3", 246.94),
   ("C4", 261.63), ("C#4", 277.18), ("D4", 293.66), ("D#4", 311.13), ("E4", 329.63),
   ("F4", 349.23), ("F#4", 369.99), ("G4", 392.00), ("G#4", 415.30),
   ("A4", 440.00), ("A#4", 466.16), ("B4", 493.88),
   ("C5", 523.25), ("C#5", 554.37), ("D5", 587.33), ("D#5", 622.25), ("E5", 659.25),
   ("F5", 698.46), ("F#5", 739.99), ("G5", 783.99), ("G#5", 830.61),
   ("A5", 880.00), ("A#5", 932.33), ("B5", 987.77),
   ("C6", 1046.50), ("C#6", 1108.73), ("D6", 1174.66), ("D#6", 1244.51), ("E6", 1318.51),
   ("F6", 1396.91), ("F#6", 1479.98), ("G6", 1567.98), ("G#6", 1661.22),
   ("A6", 1760.00), ("A#6", 1864.66), ("B6", 1975.53),
   ("C7", 2093.00), ("C#7", 2217.46), ("D7", 2349.32), ("D#7", 2489.02), ("E7", 2637.02),
   ("F7", 2793.83), ("F#7", 2959.96), ("G7", 3135.96), ("G#7", 3322.44),
   ("A7", 3520.00), ("A#7", 3729.31), ("B7", 3951.07),
   ("C8", 4186.01)]

/-- Model of an IEEE-754 double restricted to what the embedded fragments can
produce: a finite real, one of the two infinities, or `NaN`. -/
inductive JsNum where
  | fin (x : ℝ) : JsNum
  | posInf : JsNum
  | negInf : JsNum
  | nan : JsNum

/-- IEEE-754 division of two finite values (the zero divisor here is always a
positive zero, as it arises from exact real arithmetic). -/
noncomputable def jsDiv (a b : ℝ) : JsNum :=
  if b = 0 then (if a = 0 then .nan else if 0 < a then .posInf else .negInf)
  else .fin (a / b)

/-- IEEE `Math.abs` on a possibly non-finite value. -/
noncomputable def JsNum.abs : JsNum → JsNum
  | .fin x => .fin |x|
  | .posInf => .posInf
  | .negInf => .posInf
  | .nan => .nan

/-- IEEE addition of a finite value on the left. -/
noncomputable def JsNum.addL (r : ℝ) : JsNum → JsNum
  | .fin x => .fin (r + x)
  | .posInf => .posInf
  | .negInf => .negInf
  | .nan => .nan

/-- IEEE multiplication by a finite value on the right. -/
noncomputable def JsNum.mulR : JsNum → ℝ → JsNum
  | .fin x, c => .fin (x * c)
  | .posInf, c => if 0 < c then .posInf else if c < 0 then .negInf else .nan
  | .negInf, c => if 0 < c then .negInf else if c < 0 then .posInf else .nan
  | .nan, _ => .nan

/-- IEEE division by a finite value on the right (a zero divisor is a
positive zero here, see `jsDiv`). -/
noncomputable def JsNum.divR : JsNum → ℝ → JsNum
  | .fin x, c => jsDiv x c
  | .posInf, c => if c < 0 then .negInf else .posInf
  | .negInf, c => if c < 0 then .posInf else .negInf
  | .nan, _ => .nan

/-- IEEE comparison `v < c` for finite `c`; false on `NaN`. -/
noncomputable def JsNum.ltR : JsNum → ℝ → Bool
  | .fin x, c => decide (x < c)
  | .posInf, _ => false
  | .negInf, _ => true
  | .nan, _ => false

/-- `calculateSignalStrength` from tuner.ts: RMS amplitude normalised by 0.1
and clamped to `[0, 1]`.  On the empty frame the source computes
`Math.sqrt(0 / 0) = NaN`, which `Math.max`/`Math.min` propagate; the total
model returns `0` there (Lean's `0 / 0 = 0`).  The difference is observable
only in comparisons: both gates on the strength — `< VOLUME_THRESHOLD` in
`detectPitch` and `≥ VOLUME_THRESHOLD` in `processTunerAudioChunk` — are
false on `NaN`.  The `≥` gate is false on `0` as well, so
`processTunerAudioChunk` takes the same branch either way; the `<` gate
would differ (`0 < 0.03` is true, `NaN < 0.03` is false), so `detectPitch`'s
branch condition carries an explicit nonemptiness conjunct encoding the IEEE
truth value. -/
noncomputable def calculateSignalStrength (audioData : List ℝ) : ℝ :=
  let sum := (audioData.map (fun x => x * x)).sum
  let rms := Real.sqrt (sum / audioData.length)
  min 1 (max 0 (rms / 0.1))

/-- `applyHammingWindow` from tuner.ts.  The window value divides by
`audioData.length - 1` (real subtraction, as in JS); there is no special case
for a one-sample frame in the source. -/
noncomputable def applyHammingWindow (audioData : List ℝ) : List ℝ :=
  (List.range audioData.length).map (fun (i : ℕ) =>
    let windowValue := 0.54 - 0.46 * Real.cos (2 * Real.pi * (i : ℝ) / ((audioData.length : ℝ) - 1))
    audioData.getD i 0 * windowValue)

/-- `nextPowerOf2` from tuner.ts: `Math.pow(2, Math.ceil(Math.log2(n)))`.
For `n = 0` the source computes `2 ^ ⌈log₂ 0⌉ = 2 ^ (-Infinity) = 0`; for
`n ≥ 1` it is `2 ^ ⌈log₂ n⌉ = 2 ^ clog₂ n`. -/
def nextPowerOf2 (n : ℕ) : ℕ := if n = 0 then 0 else 2 ^ Nat.clog 2 n

/-- `padArray` from tuner.ts: zero-pad on the right up to `targetLength`. -/
def padArray (array : List ℝ) (targetLength : ℕ) : List ℝ :=
  array ++ List.replicate (targetLength - array.length) 0

/-- The even-index subsequence (`evenData` in `performFFT`). -/
def evenEntries : List α → List α
  | [] => []
  | [a] => [a]
  | a :: _ :: rest => a :: evenEntries rest

/-- The odd-index subsequence (`oddData` in `performFFT`). -/
def oddEntries (l : List α) : List α := evenEntries l.tail

/-- A call of the source that does not return normally.  `stackOverflow`:
`performFFT` on the empty input recurses on the again-empty even split
without reaching its base case, until the stack overflows.  `typeError`:
`performFFT` on an odd length `n > 1` allocates `⌊n/2⌋`-sample halves, and
its combine loop (`k < n/2` with fractional `n/2`) in its last iteration
reads `evenFFT[k]` past the end of the recursive result and throws on
`undefined[0]`. -/
inductive DspFailure where
  | stackOverflow : DspFailure
  | typeError : DspFailure

/-- `performFFT` from tuner.ts: recursive radix-2 decimation-in-time FFT,
producing `[real, imag]` pairs.  The base case is a single sample; otherwise
the source splits into even/odd subsequences, recurses, and combines.  Calls
that do not return normally are `.error` (see `DspFailure`): on length 0 the
even split is again empty and the recursion never reaches the base case; on
an odd length `> 1` the combine loop reads past the end of the recursive
result and throws (the source throws after its recursive calls, but since a
thrown recursive call also propagates as a failure, checking the parity
before recursing yields the same failure-or-value outcome). -/
noncomputable def performFFT (inputData : List ℝ) : Except DspFailure (List (ℝ × ℝ)) :=
  if _h1 : inputData.length = 1 then .ok [(inputData.headD 0, 0)]
  else if _h0 : inputData.length = 0 then .error .stackOverflow
  else if _hodd : inputData.length % 2 = 1 then .error .typeError
  else
    match performFFT (evenEntries inputData), performFFT (oddEntries inputData) with
    | .ok evenFFT, .ok oddFFT =>
        let n := inputData.length
        let combine := fun (sign : ℝ) (k : ℕ) =>
          let angle := -2 * Real.pi * k / n
          let twr := Real.cos angle
          let twi := Real.sin angle
          let ok := oddFFT.getD k (0, 0)
          let ek := evenFFT.getD k (0, 0)
          let oddR := ok.1 * twr - ok.2 * twi
          let oddI := ok.1 * twi + ok.2 * twr
          (ek.1 + sign * oddR, ek.2 + sign * oddI)
        .ok (((List.range (n / 2)).map (combine 1)) ++ ((List.range (n / 2)).map (combine (-1))))
    | .error e, _ => .error e
    | .ok _, .error e => .error e
termination_by inputData.length
decreasing_by
  · have hlen : ∀ (l : List ℝ), (evenEntries l).length = (l.length + 1) / 2 := by
      intro l
      induction l using evenEntries.induct with
      | case1 => simp [evenEntries]
      | case2 a => simp [evenEntries]
      | case3 a b rest ih => simp only [evenEntries, List.length_cons, ih]; omega
    rw [hlen]
    omega
  · have hlen : ∀ (l : List ℝ), (evenEntries l).length = (l.length + 1) / 2 := by
      intro l
      induction l using evenEntries.induct with
      | case1 => simp [evenEntries]
      | case2 a => simp [evenEntries]
      | case3 a b rest ih => simp only [evenEntries, List.length_cons, ih]; omega
    unfold oddEntries
    rw [hlen]
    simp only [List.length_tail]
    omega

/-- `calculateMagnitudeSpectrum` from tuner.ts: magnitudes of the first half
(up to the Nyquist limit) of the FFT output. -/
noncomputable def calculateMagnitudeSpectrum (fftResult : List (ℝ × ℝ)) : List ℝ :=
  (List.range (fftResult.length / 2)).map (fun i =>
    let p := fftResult.getD i (0, 0)
    Real.sqrt (p.1 * p.1 + p.2 * p.2))

/-- The inclusive integer range `[a, b]` traversed by a JS
`for (let i = a; i <= b; i++)` loop. -/
def intRange (a b : ℤ) : List ℤ :=
  if b < a then [] else (List.range ((b - a).toNat + 1)).map (fun j => a + j)

/-- `findPeakFrequency` from tuner.ts.  The loop scans bins `minIndex …
maxIndex`; a JS read outside the spectrum yields `undefined`, and
`undefined > peakValue` is false, so such bins never update the running
maximum — modelled by reading `0`, which likewise never beats the running
maximum (it starts at `0` and only ever increases). -/
noncomputable def findPeakFrequency (magnitudeSpectrum : List ℝ) (sampleRate : ℝ)
    (fftSize : ℕ) : Option (ℝ × ℤ) :=
  let minIndex : ℤ := ⌊MIN_FREQUENCY * fftSize / sampleRate⌋
  let maxIndex : ℤ := ⌈MAX_FREQUENCY * fftSize / sampleRate⌉
  let scan := (intRange minIndex maxIndex).foldl
    (fun (acc : ℝ × ℤ) i =>
      let m := if 0 ≤ i then magnitudeSpectrum.getD i.toNat 0 else 0
      if m > acc.1 then (m, i) else acc)
    (0, -1)
  if scan.1 < 0.01 ∨ scan.2 = -1 then none
  else some ((scan.2 * sampleRate) / fftSize, scan.2)

/-- `refineFrequencyEstimate` from tuner.ts.  The quadratic-interpolation
division is IEEE division (`jsDiv`): the source has no guard for a zero
denominator `α - 2β + γ`, so the result can be `NaN` or `±Infinity`. -/
noncomputable def refineFrequencyEstimate (magnitudeSpectrum : List ℝ) (peakIndex : ℤ)
    (sampleRate : ℝ) (fftSize : ℕ) : JsNum :=
  if peakIndex ≤ 0 ∨ peakIndex ≥ (magnitudeSpectrum.length : ℤ) - 1 then
    jsDiv (peakIndex * sampleRate) fftSize
  else
    let alpha := magnitudeSpectrum.getD (peakIndex - 1).toNat 0
    let beta := magnitudeSpectrum.getD peakIndex.toNat 0
    let gamma := magnitudeSpectrum.getD (peakIndex + 1).toNat 0
    let p := jsDiv (0.5 * (alpha - gamma)) (alpha - 2 * beta + gamma)
    let interpolatedIndex := JsNum.addL (peakIndex : ℝ) p
    (interpolatedIndex.mulR sampleRate).divR fftSize

/-- The final acceptance test of `detectPitch`:
`refined >= MIN_FREQUENCY && refined <= MAX_FREQUENCY`.  `NaN` fails both
comparisons and `±Infinity` fails one of them, so only a finite in-band value
is returned. -/
noncomputable def jsInRange (r : JsNum) (lo hi : ℝ) : Option ℝ :=
  match r with
  | .fin x => if lo ≤ x ∧ x ≤ hi then some x else none
  | _ => none

/-- `detectPitch` from tuner.ts.  The quiet branch is taken exactly when the
source's `signalStrength < VOLUME_THRESHOLD` is true: on the empty frame the
source's strength is `NaN` and the comparison is false, which the model
encodes as an explicit nonemptiness conjunct (the total
`calculateSignalStrength` returns `0` there, see its docstring; for nonempty
frames the conjunct is trivially true and the condition is the source's
comparison unchanged).  The empty frame therefore reaches the FFT:
`nextPowerOf2 0 = 0`, the padded frame is empty, and `performFFT` never
returns a value — `detectPitch` propagates the failure as `.error`. -/
noncomputable def detectPitch (audioData : List ℝ) (sampleRate : ℝ) :
    Except DspFailure (Option ℝ) :=
  let signalStrength := calculateSignalStrength audioData
  if audioData ≠ [] ∧ signalStrength < VOLUME_THRESHOLD then .ok none
  else
    let windowedData := applyHammingWindow audioData
    let paddedSize := nextPowerOf2 windowedData.length
    let paddedData := padArray windowedData paddedSize
    match performFFT paddedData with
    | .error e => .error e
    | .ok fftResult =>
        let magnitudeSpectrum := calculateMagnitudeSpectrum fftResult
        match findPeakFrequency magnitudeSpectrum sampleRate paddedSize with
        | none => .ok none
        | some peak =>
            .ok (jsInRange (refineFrequencyEstimate magnitudeSpectrum peak.2 sampleRate paddedSize)
              MIN_FREQUENCY MAX_FREQUENCY)

/-- The value of the `detectPitch` call as seen by `processTunerAudioChunk`.
The engine calls `detectPitch` only when its own gate
`signalStrength ≥ VOLUME_THRESHOLD` passed; that comparison is false both on
`NaN` (the source's strength for the empty frame) and on `0` (the model's),
so the gate implies a nonempty frame, on which `detectPitch` returns normally
(`detectPitch_ok_of_ne_nil`).  The `.error` case is therefore unreachable
from the engine; it is mapped to `none` only to make this wrapper total. -/
noncomputable def detectPitchValue (audioData : List ℝ) (sampleRate : ℝ) : Option ℝ :=
  match detectPitch audioData sampleRate with
  | .ok r => r
  | .error _ => none

/-- `calculateCentsDeviation` from tuner.ts: `Math.round(1200 * log2(f / t))`.
JavaScript `Math.round` is `⌊x + 1/2⌋`, which is Mathlib's `round`. -/
noncomputable def calculateCentsDeviation (detectedFreq targetFreq : ℝ) : ℤ :=
  round (1200 * Real.logb 2 (detectedFreq / targetFreq))

/-- The `guitarOpenStrings` list from `findClosestGuitarNote`. -/
def guitarOpenStrings : List String := ["E2", "A2", "D3", "G3", "B3", "E4"]

/-- One iteration of the `findClosestGuitarNote` loop.  The accumulator is
`(closestNote, smallestDifferenceInCents)`, with `none` standing for the
initial `Infinity`.  Note the source's asymmetry: the candidate is compared by
its `score` (cents, minus the 5-cent open-string bonus) against the stored
value, but the stored value is the previous winner's *raw* cents deviation
(`smallestDifferenceInCents = centsDeviation`, not `score`).  The dead locals
`smallestDifference` (in Hz) and `matches` are used only for logging and never
influence the returned note; they are omitted. -/
noncomputable def guitarNoteStep (frequency : ℝ) (acc : String × Option ℤ)
    (p : String × ℚ) : String × Option ℤ :=
  let centsDeviation : ℤ := |calculateCentsDeviation frequency (p.2 : ℝ)|
  let score : ℤ := if p.1 ∈ guitarOpenStrings then centsDeviation - 5 else centsDeviation
  match acc.2 with
  | none => (p.1, some centsDeviation)
  | some best => if score < best then (p.1, some centsDeviation) else acc

/-- `findClosestGuitarNote` from tuner.ts. -/
noncomputable def findClosestGuitarNote (frequency : ℝ) : String :=
  (NOTE_FREQUENCIES.foldl (guitarNoteStep frequency) ("", none)).1

/-- `getTargetFrequency` from tuner.ts: first table entry whose name starts
with `note`, else the `'E2'` entry (82.41 Hz). -/
def getTargetFrequency (note : String) : ℚ :=
  match NOTE_FREQUENCIES.find? (fun p => note.toList.isPrefixOf p.1.toList) with
  | some p => p.2
  | none => ((NOTE_FREQUENCIES.find? (fun p => p.1 == "E2")).map Prod.snd).getD 0

/-- `DetectionResult` from tuner.ts. -/
structure DetectionResult where
  note : Option String
  frequency : Option ℝ
  deviation : Option ℤ
  signalStrength : ℝ
  timestamp : ℤ

/-- `TunerState` from tuner.ts. -/
structure TunerState where
  isActive : Bool
  targetNote : String
  detectedNote : Option String
  detectedFrequency : Option ℝ
  deviation : Option ℤ
  signalStrength : Option ℝ
  recentDetections : List DetectionResult
  highestAmplitudeDetection : Option DetectionResult

/-- `initTunerState` from tuner.ts. -/
def initTunerState : TunerState :=
  { isActive := true
    targetNote := "E"
    detectedNote := none
    detectedFrequency := none
    deviation := none
    signalStrength := none
    recentDetections := []
    highestAmplitudeDetection := none }

/-- History truncation in `processTunerAudioChunk`: after the push, if the
length exceeds `DETECTION_HISTORY_SIZE` the oldest entry is `shift`ed off. -/
def truncHistory (l : List DetectionResult) : List DetectionResult :=
  if l.length > DETECTION_HISTORY_SIZE then l.tail else l

/-- The `validDetections` filter of `processTunerAudioChunk`: entries whose
`note` and `frequency` are both non-null. -/
def validDetections (l : List DetectionResult) : List DetectionResult :=
  l.filter (fun d => d.note.isSome && d.frequency.isSome)

/-- The highest-amplitude scan of `processTunerAudioChunk`: fold with running
maximum starting at `-1` and `highestAmplitudeDetection = null`, updating on a
strict `>`. -/
noncomputable def highestAmplitudeOf (l : List DetectionResult) : Option DetectionResult :=
  (l.foldl
    (fun (acc : ℝ × Option DetectionResult) d =>
      if d.signalStrength > acc.1 then (d.signalStrength, some d) else acc)
    (-1, none)).2

/-- The final `highestAmplitudeDetection` update of `processTunerAudioChunk`:
if the scan found a best valid entry it is stored, then cleared again when it
is more than 30000 ms old; if the scan found nothing, the previous state's
value is left in place (the source only assigns inside `if
(highestAmplitudeDetection)`). -/
def staleFilter (now : ℤ) (best old : Option DetectionResult) : Option DetectionResult :=
  match best with
  | some b => if now - b.timestamp > 30000 then none else some b
  | none => old

/-- The smoothing step of `processTunerAudioChunk`.  The percent-change
divides by the previous frequency with IEEE semantics (`jsDiv`): the source
only checks the previous value against `null`, not against `0`.  `NaN` and
`+Infinity` both fail the `< 3` test, selecting the 0.9/0.1 blend. -/
noncomputable def smoothFrequency (detectedFrequency : ℝ) (prev : Option ℝ) : ℝ :=
  match prev with
  | none => detectedFrequency
  | some p =>
      let percentDiff := ((jsDiv (detectedFrequency - p) p).abs).mulR 100
      if percentDiff.ltR 3 then detectedFrequency * 0.7 + p * 0.3
      else detectedFrequency * 0.9 + p * 0.1

/-- `processTunerAudioChunk` from tuner.ts, with `Date.now()` passed in as
`now`.  The source's two branches (gated-out / no pitch vs. accepted pitch)
are merged into a single `match`: the detection fields are updated exactly
when the gate passes *and* the `detectPitch` call yields a non-null value,
and in both other cases the recorded `DetectionResult` keeps null fields and
the state's detection fields are untouched.  The call goes through the
`detectPitchValue` wrapper, whose `.error` case is unreachable under the
gate. -/
noncomputable def processTunerAudioChunk (audioData : List ℝ) (tunerState : TunerState)
    (sampleRate : ℝ) (now : ℤ) : TunerState :=
  if tunerState.isActive then
    let signalStrength := calculateSignalStrength audioData
    match (if signalStrength ≥ VOLUME_THRESHOLD then detectPitchValue audioData sampleRate else none) with
    | some detectedFrequency =>
        let smoothedFrequency := smoothFrequency detectedFrequency tunerState.detectedFrequency
        let detectedNote := findClosestGuitarNote smoothedFrequency
        let deviation := calculateCentsDeviation smoothedFrequency
          ((getTargetFrequency tunerState.targetNote : ℚ) : ℝ)
        let currentDetection : DetectionResult :=
          { note := some detectedNote, frequency := some smoothedFrequency
            deviation := some deviation, signalStrength := signalStrength, timestamp := now }
        let updatedDetections := truncHistory (tunerState.recentDetections ++ [currentDetection])
        { tunerState with
            signalStrength := some signalStrength
            detectedNote := some detectedNote
            detectedFrequency := some smoothedFrequency
            deviation := some deviation
            recentDetections := updatedDetections
            highestAmplitudeDetection :=
              staleFilter now (highestAmplitudeOf (validDetections updatedDetections))
                tunerState.highestAmplitudeDetection }
    | none =>
        let currentDetection : DetectionResult :=
          { note := none, frequency := none, deviation := none
            signalStrength := signalStrength, timestamp := now }
        let updatedDetections := truncHistory (tunerState.recentDetections ++ [currentDetection])
        { tunerState with
            signalStrength := some signalStrength
            recentDetections := updatedDetections
            highestAmplitudeDetection :=
              staleFilter now (highestAmplitudeOf (validDetections updatedDetections))
                tunerState.highestAmplitudeDetection }
  else tunerState

/-- Whitespace class `\s` of the source regex (the characters relevant to
command strings). -/
def isWsChar (c : Char) : Bool :=
  c = ' ' ∨ c = '\t' ∨ c = '\n' ∨ c = '\r' ∨ c = '\x0b' ∨ c = '\x0c'

/-- Case-insensitive literal match: consume `pat` from the front of `s`. -/
def stripCI : List Char → List Char → Option (List Char)
  | [], s => some s
  | _, [] => none
  | p :: ps, c :: cs => if c.toLower = p.toLower then stripCI ps cs else none

/-- Consume one or more whitespace characters (`\s+`).  The regex quantifier
is greedy, and since the token that follows it in the pattern is never
whitespace, consuming maximally is equivalent to the backtracking semantics. -/
def stripWs1 : List Char → Option (List Char)
  | [] => none
  | c :: cs => if isWsChar c then some (cs.dropWhile isWsChar) else none

/-- Note letter class `[A-G]` with the `i` flag. -/
def isNoteLetter (c : Char) : Bool :=
  c ∈ ['A', 'B', 'C', 'D', 'E', 'F', 'G', 'a', 'b', 'c', 'd', 'e', 'f', 'g']

/-- Attempt to match `tune\s+to\s+([A-G](?:#|b)?)` (case-insensitively)
starting exactly at the head of `s`, returning the capture group. -/
def tuneToMatchAt (s : List Char) : Option (List Char) := do
  let s ← stripCI ['t', 'u', 'n', 'e'] s
  let s ← stripWs1 s
  let s ← stripCI ['t', 'o'] s
  let s ← stripWs1 s
  match s with
  | c :: rest =>
      if isNoteLetter c then
        match rest with
        | d :: _ => if d = '#' ∨ d = 'b' ∨ d = 'B' then some [c, d] else some [c]
        | [] => some [c]
      else none
  | [] => none

/-- Leftmost match of the `tune to` regex anywhere in the string
(`String.prototype.match` semantics for a non-global regex). -/
def findTuneTo (s : List Char) : Option (List Char) :=
  match tuneToMatchAt s with
  | some r => some r
  | none =>
      match s with
      | [] => none
      | _ :: rest => findTuneTo rest

/-- Substring containment, as in `String.prototype.includes`. -/
def containsSub (s pat : List Char) : Bool :=
  (List.range (s.length + 1)).any (fun i => pat.isPrefixOf (s.drop i))

/-- `handleTunerCommand` from tuner.ts: first the `tune to <note>` regex
(upper-casing the captured letter+accidental into `targetNote`), then the
exit/enter keyword tests, else the state is returned unchanged. -/
def handleTunerCommand (command : String) (tunerState : TunerState) : TunerState :=
  match findTuneTo command.toList with
  | some captured => { tunerState with targetNote := String.mk (captured.map Char.toUpper) }
  | none =>
      if containsSub command.toList "exit tuner".toList ∨
         containsSub command.toList "chord mode".toList then
        { tunerState with isActive := false }
      else if containsSub command.toList "tuner mode".toList ∨
              containsSub command.toList "tune guitar".toList then
        { tunerState with isActive := true }
      else tunerState

/-- States reachable from `initTunerState` by any interleaving of audio
frames and voice commands. -/
inductive Reachable : TunerState → Prop
  | init : Reachable initTunerState
  | audio (audioData : List ℝ) (sampleRate : ℝ) (now : ℤ) {st : TunerState} :
      Reachable st → Reachable (processTunerAudioChunk audioData st sampleRate now)
  | cmd (command : String) {st : TunerState} :
      Reachable st → Reachable (handleTunerCommand command st)

/-- The score the specification ascribes to a table entry in
`findClosestGuitarNote`: absolute cents deviation, minus the 5-cent bonus for
the six open strings. -/
noncomputable def specScore (f : ℝ) (p : String × ℚ) : ℤ :=
  if p.1 ∈ guitarOpenStrings then |calculateCentsDeviation f (p.2 : ℝ)| - 5
  else |calculateCentsDeviation f (p.2 : ℝ)|

/-- The selection rule `findClosestGuitarNote` actually implements, written as
a plain left-to-right scan: a candidate replaces the incumbent exactly when
the candidate's score (absolute cents deviation, minus 5 for an open string)
is smaller than the incumbent's *raw* absolute cents deviation (`none` is the
initial `Infinity`); the replacement stores the candidate's raw cents
deviation, not its score. -/
noncomputable def scanSelect (f : ℝ) (incumbent : String) (incumbentCents : Option ℤ) :
    List (String × ℚ) → String
  | [] => incumbent
  | p :: rest =>
      let cents := |calculateCentsDeviation f (p.2 : ℝ)|
      let score := if p.1 ∈ guitarOpenStrings then cents - 5 else cents
      match incumbentCents with
      | none => scanSelect f p.1 (some cents) rest
      | some best =>
          if score < best then scanSelect f p.1 (some cents) rest
          else scanSelect f incumbent (some best) rest

/-- A valid (note and frequency present) detection used to exhibit the stale
`highestAmplitudeDetection` behaviour of claim C2. -/
noncomputable def cexDetectionC2 : DetectionResult :=
  { note := some "E2", frequency := some 82.41, deviation := some 0
    signalStrength := 0.5, timestamp := 0 }

/-- A tuner state whose history is empty while `highestAmplitudeDetection`
still holds `cexDetectionC2` (such states arise after quiet frames evict the
valid entries from the history). -/
noncomputable def cexStateC2 : TunerState :=
  { isActive := true, targetNote := "E", detectedNote := none
    detectedFrequency := none, deviation := none, signalStrength := none
    recentDetections := [], highestAmplitudeDetection := some cexDetectionC2 }

/-- A valid detection with timestamp 0, used for claim C3. -/
noncomputable def cexDetectionC3 : DetectionResult :=
  { note := some "A2", frequency := some 110, deviation := some 0
    signalStrength := 0.4, timestamp := 0 }

/-- A tuner state holding the stale `cexDetectionC3` as
`highestAmplitudeDetection` with no valid entry left in the history. -/
noncomputable def cexStateC3 : TunerState :=
  { isActive := true, targetNote := "E", detectedNote := none
    detectedFrequency := none, deviation := none, signalStrength := none
    recentDetections := [], highestAmplitudeDetection := some cexDetectionC3 }

/-- A tuner state whose history still contains the valid `cexDetectionC3`
(timestamp 0), used to witness the staleness clearing of claim C3. -/
noncomputable def witStateC3 : TunerState :=
  { isActive := true, targetNote := "E", detectedNote := none
    detectedFrequency := none, deviation := none, signalStrength := none
    recentDetections := [cexDetectionC3], highestAmplitudeDetection := some cexDetectionC3 }

/-- A tuner state whose previous `detectedFrequency` is exactly `0`, used for
claim C8 (the source treats it as a present previous value and smooths
against it). -/
noncomputable def cexStateC8 : TunerState :=
  { isActive := true, targetNote := "E", detectedNote := none
    detectedFrequency := some 0, deviation := none, signalStrength := none
    recentDetections := [], highestAmplitudeDetection := none }

/-- The 19 table entries before E2 (A0 … D#2), in table order. -/
def notesPre : List (String × ℚ) :=
  [("A0", 27.50), ("A#0", 29.14), ("B0", 30.87), ("C1", 32.70), ("C#1", 34.65), ("D1", 36.71), 
   ("D#1", 38.89), ("E1", 41.20), ("F1", 43.65), ("F#1", 46.25), ("G1", 49.00), ("G#1", 51.91), 
   ("A1", 55.00), ("A#1", 58.27), ("B1", 61.74), ("C2", 65.41), ("C#2", 69.30), ("D2", 73.42), 
   ("D#2", 77.78)]

/-- The 67 table entries after F2 (F#2 … C8), in table order. -/
def notesAfterF2 : List (String × ℚ) :=
  [("F#2", 92.50), ("G2", 98.00), ("G#2", 103.83), ("A2", 110.00), ("A#2", 116.54), 
   ("B2", 123.47), ("C3", 130.81), ("C#3", 138.59), ("D3", 146.83), ("D#3", 155.56), 
   ("E3", 164.81), ("F3", 174.61), ("F#3", 185.00), ("G3", 196.00), ("G#3", 207.65), 
   ("A3", 220.00), ("A#3", 233.08), ("B3", 246.94), ("C4", 261.63), ("C#4", 277.18), 
   ("D4", 293.66), ("D#4", 311.13), ("E4", 329.63), ("F4", 349.23), ("F#4", 369.99), 
   ("G4", 392.00), ("G#4", 415.30), ("A4", 440.00), ("A#4", 466.16), ("B4", 493.88), 
   ("C5", 523.25), ("C#5", 554.37), ("D5", 587.33), ("D#5", 622.25), ("E5", 659.25), 
   ("F5", 698.46), ("F#5", 739.99), ("G5", 783.99), ("G#5", 830.61), ("A5", 880.00), 
   ("A#5", 932.33), ("B5", 987.77), ("C6", 1046.50), ("C#6", 1108.73), ("D6", 1174.66), 
   ("D#6", 1244.51), ("E6", 1318.51), ("F6", 1396.91), ("F#6", 1479.98), ("G6", 1567.98), 
   ("G#6", 1661.22), ("A6", 1760.00), ("A#6", 1864.66), ("B6", 1975.53), ("C7", 2093.00), 
   ("C#7", 2217.46), ("D7", 2349.32), ("D#7", 2489.02), ("E7", 2637.02), ("F7", 2793.83), 
   ("F#7", 2959.96), ("G7", 3135.96), ("G#7", 3322.44), ("A7", 3520.00), ("A#7", 3729.31), 
   ("B7", 3951.07), ("C8", 4186.01)]


/-! ### General lemmas about the per-frame transition -/

theorem performFFT_nil : performFFT ([] : List ℝ) = Except.error DspFailure.stackOverflow := by
  rw [performFFT]
  rw [dif_neg (by norm_num : ¬(([] : List ℝ).length = 1))]
  rw [dif_pos (show ([] : List ℝ).length = 0 from rfl)]

theorem detectPitch_nil (sampleRate : ℝ) :
    detectPitch ([] : List ℝ) sampleRate = Except.error DspFailure.stackOverflow := by
  rw [detectPitch]
  rw [if_neg (fun hc => hc.1 rfl)]
  simp only []
  rw [show padArray (applyHammingWindow ([] : List ℝ))
      (nextPowerOf2 (applyHammingWindow ([] : List ℝ)).length) = ([] : List ℝ) from rfl]
  rw [performFFT_nil]

theorem detectPitch_strength {audioData : List ℝ} {sampleRate f : ℝ}
    (h : detectPitch audioData sampleRate = Except.ok (some f)) :
    VOLUME_THRESHOLD ≤ calculateSignalStrength audioData := by
  cases audioData with
  | nil =>
      rw [detectPitch_nil] at h
      exact Except.noConfusion h
  | cons a l =>
      by_contra hlt
      rw [detectPitch] at h
      rw [if_pos ⟨List.cons_ne_nil a l, not_le.mp hlt⟩] at h
      simp at h

theorem process_none_shape (audioData : List ℝ) (st : TunerState) (sampleRate : ℝ) (now : ℤ)
    (ha : st.isActive = true)
    (hn : calculateSignalStrength audioData < VOLUME_THRESHOLD ∨
      detectPitchValue audioData sampleRate = none) :
    processTunerAudioChunk audioData st sampleRate now =
      { st with
          signalStrength := some (calculateSignalStrength audioData)
          recentDetections := truncHistory (st.recentDetections ++
            [{ note := none, frequency := none, deviation := none
               signalStrength := calculateSignalStrength audioData, timestamp := now }])
          highestAmplitudeDetection :=
            staleFilter now
              (highestAmplitudeOf (validDetections (truncHistory (st.recentDetections ++
                [{ note := none, frequency := none, deviation := none
                   signalStrength := calculateSignalStrength audioData, timestamp := now }]))))
              st.highestAmplitudeDetection } := by
  have hn' : (if calculateSignalStrength audioData ≥ VOLUME_THRESHOLD then
      detectPitchValue audioData sampleRate else none) = none := by
    rcases hn with hq | hd
    · exact if_neg (not_le.mpr hq)
    · split <;> simp [hd]
  rw [processTunerAudioChunk]
  simp only [ha, if_true]
  rw [hn']

theorem process_some_shape (audioData : List ℝ) (st : TunerState) (sampleRate : ℝ) (now : ℤ)
    (f : ℝ) (ha : st.isActive = true)
    (hdet : detectPitch audioData sampleRate = Except.ok (some f)) :
    processTunerAudioChunk audioData st sampleRate now =
      { st with
          signalStrength := some (calculateSignalStrength audioData)
          detectedNote := some (findClosestGuitarNote (smoothFrequency f st.detectedFrequency))
          detectedFrequency := some (smoothFrequency f st.detectedFrequency)
          deviation := some (calculateCentsDeviation (smoothFrequency f st.detectedFrequency)
            ((getTargetFrequency st.targetNote : ℚ) : ℝ))
          recentDetections := truncHistory (st.recentDetections ++
            [{ note := some (findClosestGuitarNote (smoothFrequency f st.detectedFrequency))
               frequency := some (smoothFrequency f st.detectedFrequency)
               deviation := some (calculateCentsDeviation (smoothFrequency f st.detectedFrequency)
                 ((getTargetFrequency st.targetNote : ℚ) : ℝ))
               signalStrength := calculateSignalStrength audioData, timestamp := now }])
          highestAmplitudeDetection :=
            staleFilter now
              (highestAmplitudeOf (validDetections (truncHistory (st.recentDetections ++
                [{ note := some (findClosestGuitarNote (smoothFrequency f st.detectedFrequency))
                   frequency := some (smoothFrequency f st.detectedFrequency)
                   deviation := some (calculateCentsDeviation (smoothFrequency f st.detectedFrequency)
                     ((getTargetFrequency st.targetNote : ℚ) : ℝ))
                   signalStrength := calculateSignalStrength audioData, timestamp := now }]))))
              st.highestAmplitudeDetection } := by
  have hge := detectPitch_strength hdet
  have hn' : (if calculateSignalStrength audioData ≥ VOLUME_THRESHOLD then
      detectPitchValue audioData sampleRate else none) = some f := by
    rw [if_pos hge, detectPitchValue, hdet]
  rw [processTunerAudioChunk]
  simp only [ha, if_true]
  rw [hn']

theorem process_inactive (audioData : List ℝ) (st : TunerState) (sampleRate : ℝ) (now : ℤ)
    (ha : st.isActive = false) :
    processTunerAudioChunk audioData st sampleRate now = st := by
  rw [processTunerAudioChunk]
  simp [ha]

theorem handleTunerCommand_recentDetections (command : String) (st : TunerState) :
    (handleTunerCommand command st).recentDetections = st.recentDetections := by
  rw [handleTunerCommand]
  split
  · rfl
  · split
    · rfl
    · split <;> rfl

theorem calculateSignalStrength_zero : calculateSignalStrength [(0 : ℝ)] = 0 := by
  rw [calculateSignalStrength]
  norm_num

theorem highestAmplitudeOf_aux (l : List DetectionResult) :
    ∀ (a : ℝ) (o : Option DetectionResult),
      a ≤ (l.foldl
        (fun (acc : ℝ × Option DetectionResult) d =>
          if d.signalStrength > acc.1 then (d.signalStrength, some d) else acc) (a, o)).1 ∧
      (∀ e ∈ l, e.signalStrength ≤ (l.foldl
        (fun (acc : ℝ × Option DetectionResult) d =>
          if d.signalStrength > acc.1 then (d.signalStrength, some d) else acc) (a, o)).1) ∧
      (((l.foldl
        (fun (acc : ℝ × Option DetectionResult) d =>
          if d.signalStrength > acc.1 then (d.signalStrength, some d) else acc) (a, o)).2 = o ∧
        (l.foldl
        (fun (acc : ℝ × Option DetectionResult) d =>
          if d.signalStrength > acc.1 then (d.signalStrength, some d) else acc) (a, o)).1 = a) ∨
       ∃ b ∈ l, (l.foldl
        (fun (acc : ℝ × Option DetectionResult) d =>
          if d.signalStrength > acc.1 then (d.signalStrength, some d) else acc) (a, o)).2 = some b ∧
        (l.foldl
        (fun (acc : ℝ × Option DetectionResult) d =>
          if d.signalStrength > acc.1 then (d.signalStrength, some d) else acc) (a, o)).1 =
          b.signalStrength) := by
  induction l with
  | nil => intro a o; exact ⟨le_refl a, by simp, Or.inl ⟨rfl, rfl⟩⟩
  | cons d t ih =>
      intro a o
      simp only [List.foldl_cons]
      by_cases hd : d.signalStrength > a
      · rw [if_pos hd]
        obtain ⟨h1, h2, h3⟩ := ih d.signalStrength (some d)
        refine ⟨le_of_lt (lt_of_lt_of_le hd h1), ?_, ?_⟩
        · intro e he
          rcases List.mem_cons.mp he with rfl | he'
          · exact h1
          · exact h2 e he'
        · rcases h3 with ⟨h3a, h3b⟩ | ⟨b, hb, hb2, hb3⟩
          · exact Or.inr ⟨d, List.mem_cons_self d t, h3a, h3b⟩
          · exact Or.inr ⟨b, List.mem_cons_of_mem d hb, hb2, hb3⟩
      · rw [if_neg hd]
        obtain ⟨h1, h2, h3⟩ := ih a o
        refine ⟨h1, ?_, ?_⟩
        · intro e he
          rcases List.mem_cons.mp he with rfl | he'
          · exact le_trans (le_of_not_lt hd) h1
          · exact h2 e he'
        · rcases h3 with h3 | ⟨b, hb, hb2, hb3⟩
          · exact Or.inl h3
          · exact Or.inr ⟨b, List.mem_cons_of_mem d hb, hb2, hb3⟩

theorem highestAmplitudeOf_some {l : List DetectionResult} {b : DetectionResult}
    (h : highestAmplitudeOf l = some b) :
    b ∈ l ∧ ∀ e ∈ l, e.signalStrength ≤ b.signalStrength := by
  obtain ⟨_, h2, h3⟩ := highestAmplitudeOf_aux l (-1) none
  rw [highestAmplitudeOf] at h
  rcases h3 with ⟨h3, _⟩ | ⟨b', hb', hb2, hb3⟩
  · rw [h] at h3; exact Option.noConfusion h3
  · rw [h] at hb2
    obtain rfl : b' = b := Option.some_injective _ hb2.symm
    refine ⟨hb', fun e he => le_trans (h2 e he) (le_of_eq hb3)⟩

theorem process_best_char (audioData : List ℝ) (st : TunerState) (sampleRate : ℝ) (now : ℤ)
    (ha : st.isActive = true) :
    (processTunerAudioChunk audioData st sampleRate now).highestAmplitudeDetection =
      staleFilter now
        (highestAmplitudeOf (validDetections
          (processTunerAudioChunk audioData st sampleRate now).recentDetections))
        st.highestAmplitudeDetection := by
  simp only [processTunerAudioChunk, ha, if_true]
  cases hh : (if calculateSignalStrength audioData ≥ VOLUME_THRESHOLD then
      detectPitchValue audioData sampleRate else none) <;> rfl

theorem css_zero_lt : calculateSignalStrength [(0 : ℝ)] < VOLUME_THRESHOLD := by
  rw [calculateSignalStrength_zero, VOLUME_THRESHOLD]
  norm_num

/-- Claim C2 (corrected): after an Active update, when the history contains a
valid entry the recomputed `bestRecent` is a maximal-signal-strength valid
entry (subject to the 30-second staleness clearing); but when the history
contains *no* valid entry, `bestRecent` is not recomputed to absent — the
previous value is retained. -/
theorem C2_amended (audioData : List ℝ) (st : TunerState) (sampleRate : ℝ) (now : ℤ)
    (ha : st.isActive = true) :
    (validDetections (processTunerAudioChunk audioData st sampleRate now).recentDetections = [] →
      (processTunerAudioChunk audioData st sampleRate now).highestAmplitudeDetection =
        st.highestAmplitudeDetection) ∧
    (∀ b, highestAmplitudeOf (validDetections
        (processTunerAudioChunk audioData st sampleRate now).recentDetections) = some b →
      b ∈ validDetections (processTunerAudioChunk audioData st sampleRate now).recentDetections ∧
      (∀ e ∈ validDetections (processTunerAudioChunk audioData st sampleRate now).recentDetections,
        e.signalStrength ≤ b.signalStrength) ∧
      (now - b.timestamp ≤ 30000 →
        (processTunerAudioChunk audioData st sampleRate now).highestAmplitudeDetection = some b) ∧
      (30000 < now - b.timestamp →
        (processTunerAudioChunk audioData st sampleRate now).highestAmplitudeDetection = none)) := by
  have hc := process_best_char audioData st sampleRate now ha
  constructor
  · intro hv
    rw [hc, hv]
    rfl
  · intro b hb
    obtain ⟨hmem, hmax⟩ := highestAmplitudeOf_some hb
    refine ⟨hmem, hmax, ?_, ?_⟩
    · intro hfresh
      rw [hc, hb]
      simp only [staleFilter]
      rw [if_neg (not_lt.mpr hfresh)]
    · intro hstale
      rw [hc, hb]
      simp only [staleFilter]
      rw [if_pos hstale]

/-- Claim C2, counterexample to the claim as stated: a quiet frame delivered
to `cexStateC2` leaves the history without any valid entry, yet
`highestAmplitudeDetection` is not absent — the old value survives. -/
theorem C2_counterexample :
    (processTunerAudioChunk [(0 : ℝ)] cexStateC2 400 1000).highestAmplitudeDetection =
      some cexDetectionC2 ∧
    validDetections (processTunerAudioChunk [(0 : ℝ)] cexStateC2 400 1000).recentDetections =
      [] := by
  rw [process_none_shape _ _ _ _ rfl (Or.inl css_zero_lt)]
  exact ⟨rfl, rfl⟩

/-- Witness for `C2_amended` at a concrete quiet frame from the initial
state. -/
theorem C2_amended_witness :
    (processTunerAudioChunk [(0 : ℝ)] initTunerState 400 0).highestAmplitudeDetection = none := by
  have h := (C2_amended [(0 : ℝ)] initTunerState 400 0 rfl).1
  have hv : validDetections
      (processTunerAudioChunk [(0 : ℝ)] initTunerState 400 0).recentDetections = [] := by
    rw [process_none_shape _ _ _ _ rfl (Or.inl css_zero_lt)]
    rfl
  rw [h hv]
  rfl

/-- Claim C3 (corrected): the 30-second staleness check applies to the best
valid entry recomputed from the post-update history: when that entry exists
and is more than 30000 ms old, `bestRecent` is cleared.  When the history has
no valid entry, the previous `bestRecent` is retained without any staleness
check, so a stale `bestRecent` can survive an update. -/
theorem C3_amended (audioData : List ℝ) (st : TunerState) (sampleRate : ℝ) (now : ℤ)
    (ha : st.isActive = true) :
    (∀ b, highestAmplitudeOf (validDetections
        (processTunerAudioChunk audioData st sampleRate now).recentDetections) = some b →
      30000 < now - b.timestamp →
      (processTunerAudioChunk audioData st sampleRate now).highestAmplitudeDetection = none) ∧
    (validDetections (processTunerAudioChunk audioData st sampleRate now).recentDetections = [] →
      (processTunerAudioChunk audioData st sampleRate now).highestAmplitudeDetection =
        st.highestAmplitudeDetection) := by
  have hc := process_best_char audioData st sampleRate now ha
  constructor
  · intro b hb hstale
    rw [hc, hb]
    simp only [staleFilter]
    rw [if_pos hstale]
  · intro hv
    rw [hc, hv]
    rfl

/-- Claim C3, counterexample to the claim as stated: `cexStateC3` holds a
`bestRecent` 30001 ms old; a quiet update (no new valid detection, no valid
entry in history) retains it instead of clearing it. -/
theorem C3_counterexample :
    30000 < 30001 - cexDetectionC3.timestamp ∧
    (processTunerAudioChunk [(0 : ℝ)] cexStateC3 400 30001).highestAmplitudeDetection =
      some cexDetectionC3 := by
  constructor
  · norm_num [cexDetectionC3]
  · rw [process_none_shape _ _ _ _ rfl (Or.inl css_zero_lt)]
    rfl

/-- Witness for `C3_amended`: the history of `witStateC3` still holds the
valid entry of timestamp 0, so at `now = 40000` the update clears
`bestRecent`. -/
theorem C3_amended_witness :
    (processTunerAudioChunk [(0 : ℝ)] witStateC3 400 40000).highestAmplitudeDetection = none := by
  apply (C3_amended [(0 : ℝ)] witStateC3 400 40000 rfl).1 cexDetectionC3
  · rw [process_none_shape _ _ _ _ rfl (Or.inl css_zero_lt)]
    show highestAmplitudeOf [cexDetectionC3] = some cexDetectionC3
    rw [highestAmplitudeOf]
    simp only [List.foldl_cons, List.foldl_nil]
    rw [if_pos (by norm_num [cexDetectionC3] : cexDetectionC3.signalStrength > (-1 : ℝ))]
  · norm_num [cexDetectionC3]

theorem process_hist_char (audioData : List ℝ) (st : TunerState) (sampleRate : ℝ) (now : ℤ)
    (ha : st.isActive = true) :
    ∃ d : DetectionResult,
      d.signalStrength = calculateSignalStrength audioData ∧ d.timestamp = now ∧
      (processTunerAudioChunk audioData st sampleRate now).recentDetections =
        truncHistory (st.recentDetections ++ [d]) := by
  simp only [processTunerAudioChunk, ha, if_true]
  cases hh : (if calculateSignalStrength audioData ≥ VOLUME_THRESHOLD then
      detectPitchValue audioData sampleRate else none) with
  | none => exact ⟨_, rfl, rfl, rfl⟩
  | some f => exact ⟨_, rfl, rfl, rfl⟩

/-- Claim C5 (confirmed): every reachable state's history holds at most 10
entries, and an Active update appends exactly one `DetectionResult` carrying
the frame's signal strength and timestamp, shifting off the single oldest
entry when the length would exceed 10. -/
theorem C5_theorem (st : TunerState) :
    (Reachable st → st.recentDetections.length ≤ DETECTION_HISTORY_SIZE) ∧
    (∀ (audioData : List ℝ) (sampleRate : ℝ) (now : ℤ), st.isActive = true →
      ∃ d : DetectionResult,
        d.signalStrength = calculateSignalStrength audioData ∧ d.timestamp = now ∧
        (processTunerAudioChunk audioData st sampleRate now).recentDetections =
          (if (st.recentDetections ++ [d]).length > DETECTION_HISTORY_SIZE
           then (st.recentDetections ++ [d]).tail
           else st.recentDetections ++ [d])) := by
  constructor
  · intro h
    induction h with
    | init => simp [initTunerState, DETECTION_HISTORY_SIZE]
    | audio audioData sampleRate now h ih =>
        rename_i s
        cases hb : s.isActive with
        | false => rw [process_inactive _ _ _ _ hb]; exact ih
        | true =>
            obtain ⟨d, _, _, hrd⟩ := process_hist_char audioData s sampleRate now hb
            rw [hrd, truncHistory]
            split
            · simp only [List.length_tail, List.length_append, List.length_singleton]
              omega
            · rename_i hlen
              simp only [not_lt] at hlen
              exact hlen
    | cmd command h ih =>
        rw [handleTunerCommand_recentDetections]
        exact ih
  · intro audioData sampleRate now ha
    obtain ⟨d, hd1, hd2, hrd⟩ := process_hist_char audioData st sampleRate now ha
    exact ⟨d, hd1, hd2, by rw [hrd, truncHistory]⟩

/-- Witness for `C5_theorem`: the initial state is reachable and within the
bound, and a concrete quiet update appends its one entry. -/
theorem C5_witness :
    initTunerState.recentDetections.length ≤ DETECTION_HISTORY_SIZE ∧
    ∃ d : DetectionResult,
      d.signalStrength = calculateSignalStrength [(0 : ℝ)] ∧ d.timestamp = (5 : ℤ) ∧
      (processTunerAudioChunk [(0 : ℝ)] initTunerState 400 5).recentDetections =
        (if (initTunerState.recentDetections ++ [d]).length > DETECTION_HISTORY_SIZE
         then (initTunerState.recentDetections ++ [d]).tail
         else initTunerState.recentDetections ++ [d]) :=
  ⟨(C5_theorem initTunerState).1 Reachable.init,
   (C5_theorem initTunerState).2 [(0 : ℝ)] 400 5 rfl⟩

theorem truncHistory_getLast (l : List DetectionResult) (d : DetectionResult) :
    (truncHistory (l ++ [d])).getLast? = some d := by
  rw [truncHistory]
  split
  · rename_i hlen
    cases l with
    | nil => simp [DETECTION_HISTORY_SIZE] at hlen
    | cons x t => simp
  · simp

theorem process_quiet_fields (audioData : List ℝ) (st : TunerState) (sampleRate : ℝ) (now : ℤ)
    (hq : calculateSignalStrength audioData < VOLUME_THRESHOLD) :
    (processTunerAudioChunk audioData st sampleRate now).detectedNote = st.detectedNote ∧
    (processTunerAudioChunk audioData st sampleRate now).detectedFrequency = st.detectedFrequency ∧
    (processTunerAudioChunk audioData st sampleRate now).deviation = st.deviation ∧
    (processTunerAudioChunk audioData st sampleRate now).isActive = st.isActive := by
  cases hb : st.isActive with
  | false => rw [process_inactive _ _ _ _ hb]; exact ⟨rfl, rfl, rfl, hb⟩
  | true =>
      rw [process_none_shape _ _ _ _ hb (Or.inl hq)]
      exact ⟨rfl, rfl, rfl, hb⟩

theorem C4_aux (frames : List (List ℝ × ℝ × ℤ)) : ∀ st : TunerState,
    st.detectedNote = none → st.detectedFrequency = none → st.deviation = none →
    (∀ p ∈ frames, calculateSignalStrength p.1 < VOLUME_THRESHOLD) →
    ∀ s ∈ frames.scanl (fun st p => processTunerAudioChunk p.1 st p.2.1 p.2.2) st,
      s.detectedNote = none ∧ s.detectedFrequency = none ∧ s.deviation = none := by
  induction frames with
  | nil =>
      intro st h1 h2 h3 _ s hs
      rw [List.scanl_nil, List.mem_singleton] at hs
      subst hs
      exact ⟨h1, h2, h3⟩
  | cons p ps ih =>
      intro st h1 h2 h3 hq s hs
      rw [List.scanl_cons] at hs
      rcases List.mem_append.mp hs with hs' | hs'
      · rw [List.mem_singleton] at hs'
        subst hs'
        exact ⟨h1, h2, h3⟩
      · obtain ⟨e1, e2, e3, _⟩ :=
          process_quiet_fields p.1 st p.2.1 p.2.2 (hq p (List.mem_cons_self p ps))
        exact ih _ (by rw [e1, h1]) (by rw [e2, h2]) (by rw [e3, h3])
          (fun q hqmem => hq q (List.mem_cons_of_mem p hqmem)) s hs'

/-- Claim C4 (confirmed): along any frame sequence that always stays below
`VOLUME_THRESHOLD`, the engine's `detectedNote` / `detectedFrequency` /
`deviation` keep their initial absent values after every update, while each
quiet Active update still appends the gated `DetectionResult` (absent fields,
the frame's signal strength, the frame's timestamp) at the end of the
history. -/
theorem C4_theorem (frames : List (List ℝ × ℝ × ℤ))
    (hq : ∀ p ∈ frames, calculateSignalStrength p.1 < VOLUME_THRESHOLD) :
    (∀ s ∈ frames.scanl (fun st p => processTunerAudioChunk p.1 st p.2.1 p.2.2) initTunerState,
      s.detectedNote = none ∧ s.detectedFrequency = none ∧ s.deviation = none) ∧
    (∀ (st : TunerState) (audioData : List ℝ) (sampleRate : ℝ) (now : ℤ),
      st.isActive = true → calculateSignalStrength audioData < VOLUME_THRESHOLD →
      (processTunerAudioChunk audioData st sampleRate now).recentDetections.getLast? =
        some { note := none, frequency := none, deviation := none
               signalStrength := calculateSignalStrength audioData, timestamp := now }) := by
  constructor
  · exact C4_aux frames initTunerState rfl rfl rfl hq
  · intro st audioData sampleRate now ha hquiet
    rw [process_none_shape _ _ _ _ ha (Or.inl hquiet)]
    exact truncHistory_getLast _ _

/-- Witness for `C4_theorem`: one concrete quiet frame from the initial
state. -/
theorem C4_witness :
    (processTunerAudioChunk [(0 : ℝ)] initTunerState 400 7).detectedNote = none ∧
    (processTunerAudioChunk [(0 : ℝ)] initTunerState 400 7).recentDetections.getLast? =
      some { note := none, frequency := none, deviation := none
             signalStrength := calculateSignalStrength [(0 : ℝ)], timestamp := (7 : ℤ) } := by
  obtain ⟨h1, h2⟩ := C4_theorem [([(0 : ℝ)], (400 : ℝ), (7 : ℤ))]
    (by intro p hp; rw [List.mem_singleton] at hp; subst hp; exact css_zero_lt)
  constructor
  · refine (h1 _ ?_).1
    rw [List.scanl_cons, List.scanl_nil]
    exact List.mem_cons_of_mem _ (List.mem_cons_self _ _)
  · exact h2 initTunerState [(0 : ℝ)] 400 7 rfl css_zero_lt

theorem jsInRange_spec (r : JsNum) (lo hi : ℝ) :
    jsInRange r lo hi = none ∨ ∃ f, jsInRange r lo hi = some f ∧ lo ≤ f ∧ f ≤ hi := by
  cases r with
  | fin x =>
      rw [jsInRange]
      by_cases hx : lo ≤ x ∧ x ≤ hi
      · exact Or.inr ⟨x, by rw [if_pos hx], hx.1, hx.2⟩
      · exact Or.inl (by rw [if_neg hx])
  | posInf => exact Or.inl rfl
  | negInf => exact Or.inl rfl
  | nan => exact Or.inl rfl

theorem jsInRange_ok_spec (r : JsNum) (lo hi : ℝ) :
    (Except.ok (jsInRange r lo hi) : Except DspFailure (Option ℝ)) = Except.ok none ∨
    ∃ f, (Except.ok (jsInRange r lo hi) : Except DspFailure (Option ℝ)) = Except.ok (some f) ∧
      lo ≤ f ∧ f ≤ hi := by
  rcases jsInRange_spec r lo hi with h | ⟨f, hf, h1, h2⟩
  · exact Or.inl (by rw [h])
  · exact Or.inr ⟨f, by rw [hf], h1, h2⟩

theorem evenEntries_length (l : List ℝ) : (evenEntries l).length = (l.length + 1) / 2 := by
  induction l using evenEntries.induct with
  | case1 => simp [evenEntries]
  | case2 a => simp [evenEntries]
  | case3 a b rest ih => simp only [evenEntries, List.length_cons, ih]; omega

theorem applyHammingWindow_length (audioData : List ℝ) :
    (applyHammingWindow audioData).length = audioData.length := by
  rw [applyHammingWindow]
  rw [List.length_map, List.length_range]

theorem padArray_length_of_le (l : List ℝ) (t : ℕ) (h : l.length ≤ t) :
    (padArray l t).length = t := by
  rw [padArray]
  rw [List.length_append, List.length_replicate]
  omega

theorem performFFT_pow2_ok : ∀ (k : ℕ) (l : List ℝ), l.length = 2 ^ k →
    ∃ v, performFFT l = Except.ok v := by
  intro k
  induction k with
  | zero =>
      intro l hl
      rw [performFFT, dif_pos (by rw [hl]; rfl)]
      exact ⟨_, rfl⟩
  | succ k ih =>
      intro l hl
      have h2 : 2 ≤ 2 ^ (k + 1) := by
        calc 2 = 2 ^ 1 := (pow_one 2).symm
        _ ≤ 2 ^ (k + 1) := Nat.pow_le_pow_right (by norm_num) (by omega)
      have hmod : l.length % 2 = 0 := by
        rw [hl, pow_succ]
        omega
      have he : (evenEntries l).length = 2 ^ k := by
        rw [evenEntries_length, hl, pow_succ]
        omega
      have ho : (oddEntries l).length = 2 ^ k := by
        rw [oddEntries, evenEntries_length, List.length_tail, hl, pow_succ]
        omega
      obtain ⟨ve, hve⟩ := ih (evenEntries l) he
      obtain ⟨vo, hvo⟩ := ih (oddEntries l) ho
      rw [performFFT]
      rw [dif_neg (by omega : ¬(l.length = 1))]
      rw [dif_neg (by omega : ¬(l.length = 0))]
      rw [dif_neg (by omega : ¬(l.length % 2 = 1))]
      rw [hve, hvo]
      exact ⟨_, rfl⟩

theorem detectPitch_cases (audioData : List ℝ) (sampleRate : ℝ) (hne : audioData ≠ []) :
    detectPitch audioData sampleRate = Except.ok none ∨
    ∃ f, detectPitch audioData sampleRate = Except.ok (some f) ∧
      MIN_FREQUENCY ≤ f ∧ f ≤ MAX_FREQUENCY := by
  have hlen : ¬(audioData.length = 0) := fun hc => hne (List.length_eq_zero.mp hc)
  have hnp : nextPowerOf2 (applyHammingWindow audioData).length =
      2 ^ Nat.clog 2 audioData.length := by
    rw [nextPowerOf2, applyHammingWindow_length, if_neg hlen]
  have hple : (applyHammingWindow audioData).length ≤ 2 ^ Nat.clog 2 audioData.length := by
    rw [applyHammingWindow_length]
    exact Nat.le_pow_clog (by norm_num) _
  have hplen : (padArray (applyHammingWindow audioData)
      (nextPowerOf2 (applyHammingWindow audioData).length)).length =
      2 ^ Nat.clog 2 audioData.length := by
    rw [hnp]
    exact padArray_length_of_le _ _ hple
  obtain ⟨v, hv⟩ := performFFT_pow2_ok (Nat.clog 2 audioData.length) _ hplen
  by_cases hq : audioData ≠ [] ∧ calculateSignalStrength audioData < VOLUME_THRESHOLD
  · exact Or.inl (by rw [detectPitch, if_pos hq])
  · rw [detectPitch, if_neg hq]
    simp only []
    rw [hv]
    simp only []
    split
    · exact Or.inl rfl
    · exact jsInRange_ok_spec _ _ _

theorem detectPitch_ok_of_ne_nil (audioData : List ℝ) (sampleRate : ℝ)
    (hne : audioData ≠ []) :
    ∃ r, detectPitch audioData sampleRate = Except.ok r := by
  rcases detectPitch_cases audioData sampleRate hne with h | ⟨f, hf, _, _⟩
  · exact ⟨none, h⟩
  · exact ⟨some f, hf⟩

/-- Claim C9, counterexample to the claim as stated: on the *empty* frame
`detectPitch` returns neither `null` nor an in-band frequency — the `NaN`
signal strength passes the quiet gate (`NaN < VOLUME_THRESHOLD` is false),
the frame is padded to `nextPowerOf2 0 = 0` samples, and the FFT recursion
never reaches its base case (stack overflow): the call emits a failure
signal, `.error` in the model, and equals `.ok r` for no `r`. -/
theorem C9_counterexample :
    detectPitch ([] : List ℝ) 16000 = Except.error DspFailure.stackOverflow ∧
    ∀ r : Option ℝ, detectPitch ([] : List ℝ) 16000 ≠ Except.ok r := by
  refine ⟨detectPitch_nil 16000, fun r h => ?_⟩
  rw [detectPitch_nil] at h
  exact Except.noConfusion h

/-- Claim C9 (corrected): for every *nonempty* frame and every (positive)
sample rate, `detectPitch` returns (`.ok`) either `none` or a frequency
inside the closed band `[MIN_FREQUENCY, MAX_FREQUENCY]`; the quiet gate, a
missing spectral peak and an out-of-band refined value all surface as the
ordinary `none` result.  The empty frame instead crashes (see the
counterexample). -/
theorem C9_amended (audioData : List ℝ) (sampleRate : ℝ) (hne : audioData ≠ [])
    (_h : 0 < sampleRate) :
    detectPitch audioData sampleRate = Except.ok none ∨
    ∃ f, detectPitch audioData sampleRate = Except.ok (some f) ∧
      MIN_FREQUENCY ≤ f ∧ f ≤ MAX_FREQUENCY :=
  detectPitch_cases audioData sampleRate hne

/-- Witness for `C9_amended` at a concrete nonempty quiet frame. -/
theorem C9_amended_witness :
    ([(0 : ℝ)] ≠ ([] : List ℝ)) ∧ (0 : ℝ) < 16000 ∧
    (detectPitch [(0 : ℝ)] 16000 = Except.ok none ∨
     ∃ f, detectPitch [(0 : ℝ)] 16000 = Except.ok (some f) ∧
       MIN_FREQUENCY ≤ f ∧ f ≤ MAX_FREQUENCY) :=
  ⟨List.cons_ne_nil 0 [], by norm_num,
   C9_amended [(0 : ℝ)] 16000 (List.cons_ne_nil 0 []) (by norm_num)⟩

/-- Claim C6, counterexample to the claim as stated: a one-sample frame is
*not* passed through unchanged — the window multiplies the sample by the
degenerate value `0.54 - 0.46·cos(2π·0/0)` (a `NaN` product under IEEE
semantics; `0.54 - 0.46·cos 0 = 0.08` under the total-division model, since
Lean's `0 / 0 = 0`), so `applyHammingWindow [1] ≠ [1]` either way. -/
theorem C6_counterexample : applyHammingWindow [(1 : ℝ)] ≠ [(1 : ℝ)] := by
  have h : applyHammingWindow [(1 : ℝ)] = [(0.08 : ℝ)] := by
    rw [applyHammingWindow]
    rw [show List.range ([(1 : ℝ)].length) = [0] from rfl]
    simp only [List.map_cons, List.map_nil, List.getD_cons_zero]
    norm_num
  rw [h]
  intro hc
  rw [List.cons.injEq] at hc
  norm_num at hc

/-- Claim C6 (corrected): the source has no `N = 1` guard.  For a one-sample
frame the Hamming formula divides by `N - 1 = 0`; in the total-division model
the cosine argument collapses to `0`, so the sole sample is multiplied by the
degenerate window value `0.54 - 0.46·cos 0 = 0.08` rather than returned
unchanged (under IEEE semantics the product is `NaN` — in neither semantics
is the windowing a no-op). -/
theorem C6_amended (x : ℝ) :
    applyHammingWindow [x] = [x * (0.54 - 0.46 * Real.cos 0)] := by
  rw [applyHammingWindow]
  rw [show List.range ([x].length) = [0] from rfl]
  simp only [List.map_cons, List.map_nil, List.getD_cons_zero]
  norm_num

/-- Claim C7, counterexample to the claim as stated: at the non-boundary peak
index 1 of the spectrum `[1, 1, 1, 1]` the interpolation denominator
`α - 2β + γ` is exactly `0`, and the result is the IEEE `0/0` outcome `NaN` —
not the raw bin frequency `1·16000/4`. -/
theorem C7_counterexample :
    refineFrequencyEstimate [1, 1, 1, 1] 1 16000 4 = JsNum.nan ∧
    JsNum.nan ≠ JsNum.fin ((1 * 16000 : ℝ) / 4) := by
  constructor
  · simp only [refineFrequencyEstimate]
    rw [if_neg (by norm_num)]
    rw [show ([1, 1, 1, 1] : List ℝ).getD ((1 : ℤ) - 1).toNat 0 = 1 from rfl]
    rw [show ([1, 1, 1, 1] : List ℝ).getD (1 : ℤ).toNat 0 = 1 from rfl]
    rw [show ([1, 1, 1, 1] : List ℝ).getD ((1 : ℤ) + 1).toNat 0 = 1 from rfl]
    rw [jsDiv, if_pos (by norm_num : (1 : ℝ) - 2 * 1 + 1 = 0),
      if_pos (by norm_num : (0.5 : ℝ) * (1 - 1) = 0)]
    rfl
  · simp

/-- Claim C7 (corrected): there is no zero-denominator guard in
`refineFrequencyEstimate`.  When `α - 2β + γ = 0` at a non-boundary index the
division follows IEEE semantics: the result is `NaN` when `α = γ` and
`±Infinity` otherwise — never the raw bin frequency.  (The enclosing
`detectPitch` then rejects any such value through its range check.) -/
theorem C7_amended (mags : List ℝ) (pk : ℤ) (rate : ℝ) (N : ℕ)
    (h0 : 0 < pk) (h1 : pk < (mags.length : ℤ) - 1) (hr : 0 < rate)
    (hden : mags.getD (pk - 1).toNat 0 - 2 * mags.getD pk.toNat 0 +
      mags.getD (pk + 1).toNat 0 = 0) :
    refineFrequencyEstimate mags pk rate N =
      (if mags.getD (pk - 1).toNat 0 = mags.getD (pk + 1).toNat 0 then JsNum.nan
       else if mags.getD (pk + 1).toNat 0 < mags.getD (pk - 1).toNat 0 then JsNum.posInf
       else JsNum.negInf) := by
  simp only [refineFrequencyEstimate]
  rw [if_neg (by push_neg; exact ⟨h0, h1⟩)]
  rw [hden, jsDiv, if_pos rfl]
  by_cases hag : mags.getD (pk - 1).toNat 0 = mags.getD (pk + 1).toNat 0
  · rw [if_pos (by rw [hag]; ring), if_pos hag]
    rfl
  · rw [if_neg (fun hz => hag (by linarith))]
    by_cases hlt : mags.getD (pk + 1).toNat 0 < mags.getD (pk - 1).toNat 0
    · rw [if_pos (by linarith), if_neg hag, if_pos hlt]
      show (JsNum.posInf.mulR rate).divR (N : ℝ) = JsNum.posInf
      rw [show JsNum.posInf.mulR rate = JsNum.posInf from by
        simp only [JsNum.mulR]; rw [if_pos hr]]
      show (if (N : ℝ) < 0 then JsNum.negInf else JsNum.posInf) = JsNum.posInf
      rw [if_neg (not_lt.mpr (by positivity : (0 : ℝ) ≤ (N : ℝ)))]
    · have hlt' : mags.getD (pk - 1).toNat 0 < mags.getD (pk + 1).toNat 0 :=
        lt_of_le_of_ne (not_lt.mp hlt) hag
      rw [if_neg (by push_neg; linarith :
        ¬(0 < 0.5 * (mags.getD (pk - 1).toNat 0 - mags.getD (pk + 1).toNat 0)))]
      rw [if_neg hag, if_neg hlt]
      show (JsNum.negInf.mulR rate).divR (N : ℝ) = JsNum.negInf
      rw [show JsNum.negInf.mulR rate = JsNum.negInf from by
        simp only [JsNum.mulR]; rw [if_pos hr]]
      show (if (N : ℝ) < 0 then JsNum.posInf else JsNum.negInf) = JsNum.negInf
      rw [if_neg (not_lt.mpr (by positivity : (0 : ℝ) ≤ (N : ℝ)))]

/-- Witness for `C7_amended` at a concrete spectrum with zero denominator and
`α > γ`. -/
theorem C7_amended_witness :
    refineFrequencyEstimate [2, 1.5, 1, 0] 1 16000 4 = JsNum.posInf := by
  have h := C7_amended [2, 1.5, 1, 0] 1 16000 4 (by norm_num) (by norm_num) (by norm_num)
    (by
      rw [show ([2, 1.5, 1, 0] : List ℝ).getD ((1 : ℤ) - 1).toNat 0 = 2 from rfl]
      rw [show ([2, 1.5, 1, 0] : List ℝ).getD (1 : ℤ).toNat 0 = 1.5 from rfl]
      rw [show ([2, 1.5, 1, 0] : List ℝ).getD ((1 : ℤ) + 1).toNat 0 = 1 from rfl]
      norm_num)
  rw [h]
  rw [show ([2, 1.5, 1, 0] : List ℝ).getD ((1 : ℤ) - 1).toNat 0 = 2 from rfl]
  rw [show ([2, 1.5, 1, 0] : List ℝ).getD ((1 : ℤ) + 1).toNat 0 = 1 from rfl]
  rw [if_neg (by norm_num : ¬((2 : ℝ) = 1)), if_pos (by norm_num : (1 : ℝ) < 2)]

theorem css_c8 : calculateSignalStrength [(1 : ℝ), 0, -1, 0] = 1 := by
  rw [calculateSignalStrength]
  simp only [List.map_cons, List.map_nil, List.sum_cons, List.sum_nil, List.length_cons,
    List.length_nil]
  have harg : ((1 : ℝ) * 1 + (0 * 0 + (-1 * -1 + (0 * 0 + 0)))) / ((0 + 1 + 1 + 1 + 1 : ℕ) : ℝ)
      = 1 / 2 := by
    push_cast
    norm_num
  rw [harg]
  have hs : (0.1 : ℝ) ≤ Real.sqrt (1 / 2) := by
    rw [Real.le_sqrt (by norm_num) (by norm_num)]
    norm_num
  have hnn : (0 : ℝ) ≤ Real.sqrt (1 / 2) / 0.1 := by positivity
  rw [max_eq_right hnn]
  rw [min_eq_left (by rw [le_div_iff₀ (by norm_num : (0:ℝ) < 0.1)]; linarith)]

theorem hw_c8 : applyHammingWindow [(1 : ℝ), 0, -1, 0] = [0.08, 0, -0.77, 0] := by
  rw [applyHammingWindow]
  rw [show List.range ([(1 : ℝ), 0, -1, 0].length) = [0, 1, 2, 3] from rfl]
  simp only [List.map_cons, List.map_nil]
  rw [show ([(1 : ℝ), 0, -1, 0] : List ℝ).getD 0 0 = 1 from rfl,
    show ([(1 : ℝ), 0, -1, 0] : List ℝ).getD 1 0 = 0 from rfl,
    show ([(1 : ℝ), 0, -1, 0] : List ℝ).getD 2 0 = -1 from rfl,
    show ([(1 : ℝ), 0, -1, 0] : List ℝ).getD 3 0 = 0 from rfl]
  have hlen : (([(1 : ℝ), 0, -1, 0].length : ℕ) : ℝ) - 1 = 3 := by
    norm_num
  rw [hlen]
  have h0 : 2 * Real.pi * ((0 : ℕ) : ℝ) / 3 = 0 := by norm_num
  have h2 : 2 * Real.pi * ((2 : ℕ) : ℝ) / 3 = Real.pi + Real.pi / 3 := by
    push_cast
    ring
  rw [h0, h2, Real.cos_zero]
  rw [show Real.cos (Real.pi + Real.pi / 3) = -(1 / 2) by
    rw [Real.cos_add, Real.cos_pi_div_three]
    simp]
  norm_num

theorem fft_one (x : ℝ) : performFFT [x] = Except.ok [(x, 0)] := by
  rw [performFFT]
  rw [dif_pos (by simp : [x].length = 1)]
  rfl

theorem fft_two (a b : ℝ) : performFFT [a, b] = Except.ok [(a + b, 0), (a - b, 0)] := by
  rw [performFFT]
  rw [dif_neg (by simp : ¬([a, b].length = 1))]
  rw [dif_neg (by simp : ¬([a, b].length = 0))]
  rw [dif_neg (by simp : ¬([a, b].length % 2 = 1))]
  rw [show evenEntries [a, b] = [a] from rfl, show oddEntries [a, b] = [b] from rfl]
  rw [fft_one, fft_one]
  simp only []
  rw [show List.range ([a, b].length / 2) = [0] by simp [List.range_succ]]
  simp only [List.map_cons, List.map_nil, List.getD_cons_zero]
  have hang : -2 * Real.pi * ((0 : ℕ) : ℝ) / (([a, b].length : ℕ) : ℝ) = 0 := by
    norm_num
  rw [hang, Real.cos_zero, Real.sin_zero]
  simp only [Except.ok.injEq]
  norm_num
  ring

theorem fft_four (a b c d : ℝ) :
    performFFT [a, b, c, d] =
      Except.ok [(a + c + (b + d), 0), (a - c, -(b - d)), (a + c - (b + d), 0), (a - c, b - d)] := by
  rw [performFFT]
  rw [dif_neg (by simp : ¬([a, b, c, d].length = 1))]
  rw [dif_neg (by simp : ¬([a, b, c, d].length = 0))]
  rw [dif_neg (by simp : ¬([a, b, c, d].length % 2 = 1))]
  rw [show evenEntries [a, b, c, d] = [a, c] from rfl,
    show oddEntries [a, b, c, d] = [b, d] from rfl]
  rw [fft_two, fft_two]
  simp only []
  rw [show List.range ([a, b, c, d].length / 2) = [0, 1] by simp [List.range_succ]]
  simp only [List.map_cons, List.map_nil, List.getD_cons_zero,
    List.getD_cons_succ]
  have hang0 : -2 * Real.pi * ((0 : ℕ) : ℝ) / (([a, b, c, d].length : ℕ) : ℝ) = 0 := by
    norm_num
  have hang1 : -2 * Real.pi * ((1 : ℕ) : ℝ) / (([a, b, c, d].length : ℕ) : ℝ) =
      -(Real.pi / 2) := by
    rw [show (([a, b, c, d].length : ℕ) : ℝ) = 4 by norm_num]
    push_cast
    ring
  rw [hang0, hang1, Real.cos_zero, Real.sin_zero, Real.cos_neg, Real.sin_neg,
    Real.cos_pi_div_two, Real.sin_pi_div_two]
  simp only [Except.ok.injEq]
  norm_num
  ring

theorem mags_c8 :
    calculateMagnitudeSpectrum [((-0.69 : ℝ), (0 : ℝ)), (0.85, 0), (-0.69, 0), (0.85, 0)] =
      [0.69, 0.85] := by
  rw [calculateMagnitudeSpectrum]
  rw [show List.range ([((-0.69 : ℝ), (0 : ℝ)), (0.85, 0), (-0.69, 0), (0.85, 0)].length / 2) =
    [0, 1] by simp [List.range_succ]]
  simp only [List.map_cons, List.map_nil, List.getD_cons_zero, List.getD_cons_succ]
  rw [show ((-0.69 : ℝ) * -0.69 + 0 * 0 : ℝ) = 0.69 ^ 2 by norm_num,
    show ((0.85 : ℝ) * 0.85 + 0 * 0 : ℝ) = 0.85 ^ 2 by norm_num,
    Real.sqrt_sq (by norm_num : (0 : ℝ) ≤ 0.69),
    Real.sqrt_sq (by norm_num : (0 : ℝ) ≤ 0.85)]

theorem peak_c8 : findPeakFrequency [(0.69 : ℝ), 0.85] 400 4 = some (100, 1) := by
  rw [findPeakFrequency]
  rw [show ⌊MIN_FREQUENCY * (4 : ℕ) / (400 : ℝ)⌋ = 0 by
    rw [MIN_FREQUENCY]; push_cast; norm_num]
  rw [show ⌈MAX_FREQUENCY * (4 : ℕ) / (400 : ℝ)⌉ = 4 by
    rw [MAX_FREQUENCY]; push_cast; rw [Int.ceil_eq_iff] <;> norm_num]
  rw [show intRange 0 4 = [0, 1, 2, 3, 4] by decide]
  simp only [List.foldl_cons, List.foldl_nil, Int.reduceToNat, Int.toNat_zero, Int.toNat_one,
    List.getD, List.getElem?_cons_succ, List.getElem?_cons_zero, List.getElem?_nil,
    Option.getD_some, Option.getD_none]
  norm_num

theorem refine_c8 : refineFrequencyEstimate [(0.69 : ℝ), 0.85] 1 400 4 = JsNum.fin 100 := by
  rw [refineFrequencyEstimate]
  rw [if_pos (Or.inr (by norm_num : (1 : ℤ) ≥ ([(0.69 : ℝ), 0.85].length : ℤ) - 1))]
  rw [jsDiv, if_neg (by norm_num : ¬((4 : ℕ) : ℝ) = 0)]
  norm_num

theorem detect_c8 : detectPitch [(1 : ℝ), 0, -1, 0] 400 = Except.ok (some 100) := by
  rw [detectPitch]
  rw [css_c8]
  rw [if_neg (fun hc => absurd hc.2 (by rw [VOLUME_THRESHOLD]; norm_num))]
  rw [hw_c8]
  simp only []
  rw [show nextPowerOf2 ([(0.08 : ℝ), 0, -0.77, 0].length) = 4 by
    rw [show ([(0.08 : ℝ), 0, -0.77, 0].length) = 4 from rfl, nextPowerOf2]
    rw [if_neg (by norm_num : ¬((4 : ℕ) = 0))]
    rw [show (4 : ℕ) = 2 ^ 2 from rfl, Nat.clog_pow 2 2 (by norm_num)]]
  rw [show padArray [(0.08 : ℝ), 0, -0.77, 0] 4 = [(0.08 : ℝ), 0, -0.77, 0] by
    rw [padArray]; simp]
  rw [fft_four]
  rw [show ((0.08 : ℝ) + -0.77 + (0 + 0), (0 : ℝ)) = ((-0.69 : ℝ), (0 : ℝ)) by norm_num]
  rw [show ((0.08 : ℝ) - -0.77, -((0 : ℝ) - 0)) = ((0.85 : ℝ), (0 : ℝ)) by norm_num]
  rw [show ((0.08 : ℝ) + -0.77 - (0 + 0), (0 : ℝ)) = ((-0.69 : ℝ), (0 : ℝ)) by norm_num]
  rw [show ((0.08 : ℝ) - -0.77, (0 : ℝ) - 0) = ((0.85 : ℝ), (0 : ℝ)) by norm_num]
  simp only []
  rw [mags_c8]
  rw [peak_c8]
  show Except.ok (jsInRange (refineFrequencyEstimate [(0.69 : ℝ), 0.85] 1 400 4)
    MIN_FREQUENCY MAX_FREQUENCY) = Except.ok (some 100)
  rw [refine_c8, jsInRange]
  rw [if_pos (by rw [MIN_FREQUENCY, MAX_FREQUENCY]; norm_num)]

/-- Claim C8 (corrected): when the previous `detectedFrequency` is absent
(`null`), the smoothing is skipped and the stored frequency equals the raw
detected frequency.  A previous value of exactly `0` is *not* treated as
absent: the source only compares against `null`, so the percent-change
divides by zero (IEEE `+Infinity`), fails the `< 3` test, and the 0.9/0.1
blend is applied. -/
theorem C8_amended (audioData : List ℝ) (st : TunerState) (sampleRate : ℝ) (now : ℤ) (f : ℝ)
    (ha : st.isActive = true) (hprev : st.detectedFrequency = none)
    (hdet : detectPitch audioData sampleRate = Except.ok (some f)) :
    (processTunerAudioChunk audioData st sampleRate now).detectedFrequency = some f := by
  rw [process_some_shape audioData st sampleRate now f ha hdet]
  show some (smoothFrequency f st.detectedFrequency) = some f
  rw [hprev]
  rfl

/-- Witness for `C8_amended`: the frame `[1, 0, -1, 0]` at 400 Hz sample rate
yields the detected frequency 100 Hz, stored unmodified from the initial
state. -/
theorem C8_amended_witness :
    (processTunerAudioChunk [(1 : ℝ), 0, -1, 0] initTunerState 400 0).detectedFrequency =
      some 100 :=
  C8_amended _ _ _ _ _ rfl rfl detect_c8

/-- Claim C8, counterexample to the claim as stated: with a previous
`detectedFrequency` of exactly `0`, the raw detection 100 Hz is *not* stored
unmodified — the percent-change computation is not skipped (it divides by
zero, giving `+Infinity`), and the blend `0.9·100 + 0.1·0 = 90` is stored. -/
theorem C8_counterexample :
    cexStateC8.detectedFrequency = some 0 ∧
    detectPitch [(1 : ℝ), 0, -1, 0] 400 = Except.ok (some 100) ∧
    (processTunerAudioChunk [(1 : ℝ), 0, -1, 0] cexStateC8 400 0).detectedFrequency = some 90 ∧
    (90 : ℝ) ≠ 100 := by
  refine ⟨rfl, detect_c8, ?_, by norm_num⟩
  rw [process_some_shape _ _ _ _ 100 rfl detect_c8]
  show some (smoothFrequency 100 cexStateC8.detectedFrequency) = some 90
  rw [show cexStateC8.detectedFrequency = some 0 from rfl]
  rw [smoothFrequency]
  rw [show jsDiv ((100 : ℝ) - 0) 0 = JsNum.posInf by
    rw [jsDiv, if_pos rfl, if_neg (by norm_num : ¬((100 : ℝ) - 0 = 0)),
      if_pos (by norm_num : (0 : ℝ) < 100 - 0)]]
  rw [show (JsNum.posInf.abs).mulR 100 = JsNum.posInf by
    show JsNum.posInf.mulR 100 = JsNum.posInf
    simp only [JsNum.mulR]
    rw [if_pos (by norm_num : (0 : ℝ) < 100)]]
  rw [show JsNum.posInf.ltR 3 = false from rfl]
  norm_num

theorem handleTuneTo_targetNote (command : String) (st : TunerState) (cap : List Char)
    (h : findTuneTo command.toList = some cap) :
    (handleTunerCommand command st).targetNote = String.mk (cap.map Char.toUpper) := by
  rw [handleTunerCommand, h]

theorem getTargetFrequency_fallback (note : String)
    (h : NOTE_FREQUENCIES.find? (fun p => note.toList.isPrefixOf p.1.toList) = none) :
    getTargetFrequency note = 82.41 := by
  rw [getTargetFrequency, h]
  rfl

/-- Claim C10 (confirmed): a command `tune to <letter>b` (flat accidental)
sets `targetNote` to the upper-cased two-character string ending in `'B'`;
that string is a prefix of no entry of the 88-entry table (accidentals are
spelled only as sharps there), so `getTargetFrequency` falls back to the E2
frequency 82.41 Hz for every such target. -/
theorem C10_theorem (st : TunerState) (c : Char)
    (hc : c ∈ ['a', 'b', 'c', 'd', 'e', 'f', 'g']) :
    (handleTunerCommand ("tune to " ++ String.mk [c, 'b']) st).targetNote =
      String.mk [c.toUpper, 'B'] ∧
    (∀ p ∈ NOTE_FREQUENCIES, ([c.toUpper, 'B'] : List Char).isPrefixOf p.1.toList = false) ∧
    getTargetFrequency (String.mk [c.toUpper, 'B']) = 82.41 := by
  fin_cases hc
  · exact ⟨(handleTuneTo_targetNote _ st ['a', 'b'] (by decide)).trans (by decide),
      by decide, getTargetFrequency_fallback _ (by decide)⟩
  · exact ⟨(handleTuneTo_targetNote _ st ['b', 'b'] (by decide)).trans (by decide),
      by decide, getTargetFrequency_fallback _ (by decide)⟩
  · exact ⟨(handleTuneTo_targetNote _ st ['c', 'b'] (by decide)).trans (by decide),
      by decide, getTargetFrequency_fallback _ (by decide)⟩
  · exact ⟨(handleTuneTo_targetNote _ st ['d', 'b'] (by decide)).trans (by decide),
      by decide, getTargetFrequency_fallback _ (by decide)⟩
  · exact ⟨(handleTuneTo_targetNote _ st ['e', 'b'] (by decide)).trans (by decide),
      by decide, getTargetFrequency_fallback _ (by decide)⟩
  · exact ⟨(handleTuneTo_targetNote _ st ['f', 'b'] (by decide)).trans (by decide),
      by decide, getTargetFrequency_fallback _ (by decide)⟩
  · exact ⟨(handleTuneTo_targetNote _ st ['g', 'b'] (by decide)).trans (by decide),
      by decide, getTargetFrequency_fallback _ (by decide)⟩

/-- Witness for `C10_theorem`: the command `"tune to eb"`. -/
theorem C10_witness :
    (handleTunerCommand ("tune to " ++ String.mk ['e', 'b']) initTunerState).targetNote =
      String.mk ['e'.toUpper, 'B'] ∧
    (∀ p ∈ NOTE_FREQUENCIES, (['e'.toUpper, 'B'] : List Char).isPrefixOf p.1.toList = false) ∧
    getTargetFrequency (String.mk ['e'.toUpper, 'B']) = 82.41 :=
  C10_theorem initTunerState 'e' (by decide)

/-! ### Exact integer-cents arithmetic for `findClosestGuitarNote`

`Math.round(1200·log2 x) = k` is characterised by `2^(2k-1) ≤ x^2400 <
2^(2k+1)`, which for rational `x` is an exact integer comparison. -/

theorem logb_lb (x : ℝ) (hx : 0 < x) (a : ℤ) (h : (2 : ℝ) ^ a ≤ x ^ (2400 : ℕ)) :
    (a : ℝ) ≤ 2400 * Real.logb 2 x := by
  have hx24 : (0 : ℝ) < x ^ (2400 : ℕ) := by positivity
  have h2 : ((a : ℝ)) ≤ Real.logb 2 (x ^ (2400 : ℕ)) := by
    rw [Real.le_logb_iff_rpow_le one_lt_two hx24, Real.rpow_intCast]
    exact h
  rwa [Real.logb_pow] at h2

theorem logb_ub (x : ℝ) (hx : 0 < x) (a : ℤ) (h : x ^ (2400 : ℕ) < (2 : ℝ) ^ a) :
    2400 * Real.logb 2 x < a := by
  have hx24 : (0 : ℝ) < x ^ (2400 : ℕ) := by positivity
  have h2 : Real.logb 2 (x ^ (2400 : ℕ)) < (a : ℝ) := by
    rw [Real.logb_lt_iff_lt_rpow one_lt_two hx24, Real.rpow_intCast]
    exact h
  rwa [Real.logb_pow] at h2

theorem round_cents_eq (x : ℝ) (hx : 0 < x) (k : ℤ)
    (h1 : (2 : ℝ) ^ (2 * k - 1) ≤ x ^ (2400 : ℕ))
    (h2 : x ^ (2400 : ℕ) < (2 : ℝ) ^ (2 * k + 1)) :
    round (1200 * Real.logb 2 x) = k := by
  have hl := logb_lb x hx (2 * k - 1) h1
  have hu := logb_ub x hx (2 * k + 1) h2
  rw [round_eq, Int.floor_eq_iff]
  push_cast at hl hu ⊢
  constructor <;> linarith

theorem round_cents_ge (x : ℝ) (hx : 0 < x) (m : ℕ)
    (h : (2 : ℝ) ^ (2 * (m : ℤ) - 1) ≤ x ^ (2400 : ℕ)) :
    (m : ℤ) ≤ round (1200 * Real.logb 2 x) := by
  have hl := logb_lb x hx (2 * m - 1) h
  rw [round_eq, Int.le_floor]
  push_cast at hl ⊢
  linarith

theorem round_cents_le_neg (x : ℝ) (hx : 0 < x) (m : ℕ)
    (h : x ^ (2400 : ℕ) < (2 : ℝ) ^ (1 - 2 * (m : ℤ))) :
    round (1200 * Real.logb 2 x) ≤ -(m : ℤ) := by
  have hu := logb_ub x hx (1 - 2 * m) h
  rw [round_eq]
  refine Int.lt_add_one_iff.mp (Int.floor_lt.mpr ?_)
  push_cast at hu ⊢
  linarith

theorem div_pow_le_iff (f t : ℝ) (hf : 0 < f) (ht : 0 < t) (e : ℕ)
    (h : (2 : ℝ) ^ e * t ^ 2400 ≤ f ^ 2400) :
    (2 : ℝ) ^ (e : ℤ) ≤ (f / t) ^ (2400 : ℕ) := by
  rw [div_pow, le_div_iff₀ (by positivity), zpow_natCast]
  exact h

theorem div_pow_lt_iff (f t : ℝ) (hf : 0 < f) (ht : 0 < t) (e : ℕ)
    (h : f ^ 2400 < (2 : ℝ) ^ e * t ^ 2400) :
    (f / t) ^ (2400 : ℕ) < (2 : ℝ) ^ (e : ℤ) := by
  rw [div_pow, div_lt_iff₀ (by positivity), zpow_natCast]
  exact h

theorem div_pow_le_neg (f t : ℝ) (hf : 0 < f) (ht : 0 < t) (e : ℕ)
    (h : t ^ 2400 ≤ (2 : ℝ) ^ e * f ^ 2400) :
    (2 : ℝ) ^ (-(e : ℤ)) ≤ (f / t) ^ (2400 : ℕ) := by
  rw [div_pow, le_div_iff₀ (by positivity), zpow_neg, zpow_natCast]
  rw [inv_mul_le_iff₀ (by positivity)]
  linarith

theorem div_pow_lt_neg (f t : ℝ) (hf : 0 < f) (ht : 0 < t) (e : ℕ)
    (h : (2 : ℝ) ^ e * f ^ 2400 < t ^ 2400) :
    (f / t) ^ (2400 : ℕ) < (2 : ℝ) ^ (-(e : ℤ)) := by
  rw [div_pow, div_lt_iff₀ (by positivity), zpow_neg, zpow_natCast]
  rw [inv_mul_eq_div, lt_div_iff₀ (by positivity)]
  linarith

theorem absCents_pos_eq (f t : ℝ) (k : ℕ) (hf : 0 < f) (ht : 0 < t) (hk : 1 ≤ k)
    (h1 : (2 : ℝ) ^ (2 * k - 1) * t ^ 2400 ≤ f ^ 2400)
    (h2 : f ^ 2400 < (2 : ℝ) ^ (2 * k + 1) * t ^ 2400) :
    |round (1200 * Real.logb 2 (f / t))| = k := by
  have hdiv : (0 : ℝ) < f / t := by positivity
  have e1 : (2 : ℝ) ^ (2 * (k : ℤ) - 1) ≤ (f / t) ^ (2400 : ℕ) := by
    have := div_pow_le_iff f t hf ht (2 * k - 1) h1
    rwa [show ((2 * k - 1 : ℕ) : ℤ) = 2 * (k : ℤ) - 1 by omega] at this
  have e2 : (f / t) ^ (2400 : ℕ) < (2 : ℝ) ^ (2 * (k : ℤ) + 1) := by
    have := div_pow_lt_iff f t hf ht (2 * k + 1) h2
    rwa [show ((2 * k + 1 : ℕ) : ℤ) = 2 * (k : ℤ) + 1 by omega] at this
  rw [round_cents_eq (f / t) hdiv (k : ℤ) e1 e2]
  simp

theorem absCents_neg_eq (f t : ℝ) (k : ℕ) (hf : 0 < f) (ht : 0 < t) (hk : 1 ≤ k)
    (h1 : t ^ 2400 ≤ (2 : ℝ) ^ (2 * k + 1) * f ^ 2400)
    (h2 : (2 : ℝ) ^ (2 * k - 1) * f ^ 2400 < t ^ 2400) :
    |round (1200 * Real.logb 2 (f / t))| = k := by
  have hdiv : (0 : ℝ) < f / t := by positivity
  have e1 : (2 : ℝ) ^ (2 * (-(k : ℤ)) - 1) ≤ (f / t) ^ (2400 : ℕ) := by
    have := div_pow_le_neg f t hf ht (2 * k + 1) h1
    rwa [show (-((2 * k + 1 : ℕ) : ℤ)) = 2 * (-(k : ℤ)) - 1 by omega] at this
  have e2 : (f / t) ^ (2400 : ℕ) < (2 : ℝ) ^ (2 * (-(k : ℤ)) + 1) := by
    have := div_pow_lt_neg f t hf ht (2 * k - 1) h2
    rwa [show (-((2 * k - 1 : ℕ) : ℤ)) = 2 * (-(k : ℤ)) + 1 by omega] at this
  rw [round_cents_eq (f / t) hdiv (-(k : ℤ)) e1 e2]
  simp

theorem absCents_ge_pos (f t : ℝ) (m : ℕ) (hf : 0 < f) (ht : 0 < t) (hm : 1 ≤ m)
    (h : (2 : ℝ) ^ (2 * m - 1) * t ^ 2400 ≤ f ^ 2400) :
    (m : ℤ) ≤ |round (1200 * Real.logb 2 (f / t))| := by
  have hdiv : (0 : ℝ) < f / t := by positivity
  have e1 : (2 : ℝ) ^ (2 * (m : ℤ) - 1) ≤ (f / t) ^ (2400 : ℕ) := by
    have := div_pow_le_iff f t hf ht (2 * m - 1) h
    rwa [show ((2 * m - 1 : ℕ) : ℤ) = 2 * (m : ℤ) - 1 by omega] at this
  exact le_trans (round_cents_ge (f / t) hdiv m e1) (le_abs_self _)

theorem absCents_ge_neg (f t : ℝ) (m : ℕ) (hf : 0 < f) (ht : 0 < t) (hm : 1 ≤ m)
    (h : (2 : ℝ) ^ (2 * m - 1) * f ^ 2400 < t ^ 2400) :
    (m : ℤ) ≤ |round (1200 * Real.logb 2 (f / t))| := by
  have hdiv : (0 : ℝ) < f / t := by positivity
  have e2 : (f / t) ^ (2400 : ℕ) < (2 : ℝ) ^ (1 - 2 * (m : ℤ)) := by
    have := div_pow_lt_neg f t hf ht (2 * m - 1) h
    rwa [show (-((2 * m - 1 : ℕ) : ℤ)) = 1 - 2 * (m : ℤ) by omega] at this
  have hr := round_cents_le_neg (f / t) hdiv m e2
  calc (m : ℤ) ≤ -round (1200 * Real.logb 2 (f / t)) := by linarith
    _ ≤ |round (1200 * Real.logb 2 (f / t))| := neg_le_abs _

theorem absCents_self (f : ℝ) (hf : 0 < f) :
    |round (1200 * Real.logb 2 (f / f))| = 0 := by
  rw [div_self (ne_of_gt hf), Real.logb_one]
  norm_num

theorem round_mono {x y : ℝ} (h : x ≤ y) : round x ≤ round y := by
  rw [round_eq, round_eq]
  exact Int.floor_le_floor (by linarith)

theorem absCents_mono_upper (f t t' : ℝ) (hf : 0 < f) (hft : f ≤ t) (htt : t ≤ t') :
    |round (1200 * Real.logb 2 (f / t))| ≤ |round (1200 * Real.logb 2 (f / t'))| := by
  have ht : 0 < t := lt_of_lt_of_le hf hft
  have ht' : 0 < t' := lt_of_lt_of_le ht htt
  have hr1 : f / t' ≤ f / t := by gcongr
  have hle1 : f / t ≤ 1 := (div_le_one ht).mpr hft
  have hL1 : Real.logb 2 (f / t) ≤ 0 := Real.logb_nonpos one_lt_two (by positivity) hle1
  have hL2 : Real.logb 2 (f / t') ≤ Real.logb 2 (f / t) :=
    Real.logb_le_logb_of_le one_lt_two (by positivity) hr1
  have hr0 : round (1200 * Real.logb 2 (f / t)) ≤ 0 := by
    have := round_mono (show 1200 * Real.logb 2 (f / t) ≤ 0 by nlinarith)
    simpa using this
  have hr2 : round (1200 * Real.logb 2 (f / t')) ≤ round (1200 * Real.logb 2 (f / t)) :=
    round_mono (by nlinarith)
  rw [abs_of_nonpos hr0, abs_of_nonpos (le_trans hr2 hr0)]
  omega

theorem absCents_mono_lower (f t t' : ℝ) (ht' : 0 < t') (htt : t' ≤ t) (htf : t ≤ f) :
    |round (1200 * Real.logb 2 (f / t))| ≤ |round (1200 * Real.logb 2 (f / t'))| := by
  have ht : 0 < t := lt_of_lt_of_le ht' htt
  have hf : 0 < f := lt_of_lt_of_le ht htf
  have hr1 : f / t ≤ f / t' := by gcongr
  have hge1 : 1 ≤ f / t := (one_le_div ht).mpr htf
  have hL1 : 0 ≤ Real.logb 2 (f / t) := Real.logb_nonneg one_lt_two hge1
  have hr0 : 0 ≤ round (1200 * Real.logb 2 (f / t)) := by
    have := round_mono (show (0 : ℝ) ≤ 1200 * Real.logb 2 (f / t) by nlinarith)
    simpa using this
  have hr2 : round (1200 * Real.logb 2 (f / t)) ≤ round (1200 * Real.logb 2 (f / t')) :=
    round_mono (by nlinarith [Real.logb_le_logb_of_le one_lt_two (by positivity : (0:ℝ) < f / t) hr1])
  rw [abs_of_nonneg hr0, abs_of_nonneg (le_trans hr0 hr2)]
  omega

theorem step_none (f : ℝ) (n : String) (p : String × ℚ) :
    guitarNoteStep f (n, none) p = (p.1, some |calculateCentsDeviation f (p.2 : ℝ)|) := rfl

theorem step_update (f : ℝ) (n : String) (b : ℤ) (p : String × ℚ) (c : ℤ)
    (hc : |calculateCentsDeviation f (p.2 : ℝ)| = c)
    (hlt : (if p.1 ∈ guitarOpenStrings then c - 5 else c) < b) :
    guitarNoteStep f (n, some b) p = (p.1, some c) := by
  simp only [guitarNoteStep, hc]
  rw [if_pos hlt]

theorem step_keep (f : ℝ) (n : String) (b : ℤ) (p : String × ℚ) (c : ℤ)
    (hc : |calculateCentsDeviation f (p.2 : ℝ)| = c)
    (hge : ¬((if p.1 ∈ guitarOpenStrings then c - 5 else c) < b)) :
    guitarNoteStep f (n, some b) p = (n, some b) := by
  simp only [guitarNoteStep, hc]
  rw [if_neg hge]

theorem fold_some_lb (f : ℝ) (m : ℤ) : ∀ (l : List (String × ℚ)),
    (∀ p ∈ l, m ≤ |calculateCentsDeviation f (p.2 : ℝ)|) →
    ∀ (n : String) (b : ℤ), m ≤ b →
      ∃ n' b', l.foldl (guitarNoteStep f) (n, some b) = (n', some b') ∧ m ≤ b' := by
  intro l
  induction l with
  | nil => intro _ n b hb; exact ⟨n, b, rfl, hb⟩
  | cons p t ih =>
      intro hl n b hb
      rw [List.foldl_cons]
      by_cases h : (if p.1 ∈ guitarOpenStrings then |calculateCentsDeviation f (p.2 : ℝ)| - 5
          else |calculateCentsDeviation f (p.2 : ℝ)|) < b
      · rw [step_update f n b p _ rfl h]
        exact ih (fun q hq => hl q (List.mem_cons_of_mem p hq)) p.1 _
          (hl p (List.mem_cons_self p t))
      · rw [step_keep f n b p _ rfl h]
        exact ih (fun q hq => hl q (List.mem_cons_of_mem p hq)) n b hb

theorem fold_keep_all (f : ℝ) : ∀ (l : List (String × ℚ)) (n : String) (b : ℤ),
    (∀ p ∈ l, ¬((if p.1 ∈ guitarOpenStrings then |calculateCentsDeviation f (p.2 : ℝ)| - 5
        else |calculateCentsDeviation f (p.2 : ℝ)|) < b)) →
    l.foldl (guitarNoteStep f) (n, some b) = (n, some b) := by
  intro l
  induction l with
  | nil => intro n b _; rfl
  | cons p t ih =>
      intro n b hl
      rw [List.foldl_cons, step_keep f n b p _ rfl (hl p (List.mem_cons_self p t))]
      exact ih n b (fun q hq => hl q (List.mem_cons_of_mem p hq))

theorem foldl_eq_scanSelect (f : ℝ) : ∀ (l : List (String × ℚ)) (n : String) (o : Option ℤ),
    (l.foldl (guitarNoteStep f) (n, o)).1 = scanSelect f n o l := by
  intro l
  induction l with
  | nil => intro n o; rfl
  | cons p t ih =>
      intro n o
      rw [List.foldl_cons]
      cases o with
      | none =>
          rw [step_none]
          simp only [scanSelect]
          exact ih p.1 _
      | some b =>
          simp only [scanSelect]
          by_cases h : (if p.1 ∈ guitarOpenStrings then |calculateCentsDeviation f (p.2 : ℝ)| - 5
              else |calculateCentsDeviation f (p.2 : ℝ)|) < b
          · rw [step_update f n b p _ rfl h, if_pos h]
            exact ih p.1 _
          · rw [step_keep f n b p _ rfl h, if_neg h]
            exact ih n _

theorem table_split :
    NOTE_FREQUENCIES = notesPre ++ ("E2", (82.41 : ℚ)) :: ("F2", (87.31 : ℚ)) :: notesAfterF2 :=
  rfl

theorem notesPre_bounds : ∀ p ∈ notesPre, (0 : ℝ) < (p.2 : ℝ) ∧ ((p.2 : ℝ)) ≤ 77.78 := by
  intro p hp
  fin_cases hp <;> constructor <;> norm_num

theorem notesSuf_ge : ∀ p ∈ ("F2", (87.31 : ℚ)) :: notesAfterF2, (87.31 : ℝ) ≤ (p.2 : ℝ) := by
  intro p hp
  fin_cases hp <;> norm_num

theorem notesAfterF2_ge : ∀ p ∈ notesAfterF2, (92.5 : ℝ) ≤ (p.2 : ℝ) := by
  intro p hp
  fin_cases hp <;> norm_num

set_option maxHeartbeats 2000000 in
theorem cents_849_e2 : |calculateCentsDeviation (84.9 : ℝ) (((82.41 : ℚ)) : ℝ)| = 52 := by
  rw [calculateCentsDeviation, show (((82.41 : ℚ)) : ℝ) = 82.41 by norm_num]
  exact absCents_pos_eq 84.9 82.41 52 (by norm_num) (by norm_num) (by norm_num)
    (by norm_num) (by norm_num)

set_option maxHeartbeats 2000000 in
theorem cents_849_f2 : |calculateCentsDeviation (84.9 : ℝ) (((87.31 : ℚ)) : ℝ)| = 48 := by
  rw [calculateCentsDeviation, show (((87.31 : ℚ)) : ℝ) = 87.31 by norm_num]
  exact absCents_neg_eq 84.9 87.31 48 (by norm_num) (by norm_num) (by norm_num)
    (by norm_num) (by norm_num)

set_option maxHeartbeats 2000000 in
theorem cents_8241_f2_ge : (5 : ℤ) ≤ |calculateCentsDeviation (82.41 : ℝ) ((87.31 : ℝ))| := by
  rw [calculateCentsDeviation]
  exact absCents_ge_neg 82.41 87.31 5 (by norm_num) (by norm_num) (by norm_num) (by norm_num)

set_option maxHeartbeats 2000000 in
theorem cents_849_dsharp2_ge : (48 : ℤ) ≤ |calculateCentsDeviation (84.9 : ℝ) ((77.78 : ℝ))| := by
  rw [calculateCentsDeviation]
  exact absCents_ge_pos 84.9 77.78 48 (by norm_num) (by norm_num) (by norm_num) (by norm_num)

set_option maxHeartbeats 2000000 in
theorem cents_849_fsharp2_ge : (53 : ℤ) ≤ |calculateCentsDeviation (84.9 : ℝ) ((92.5 : ℝ))| := by
  rw [calculateCentsDeviation]
  exact absCents_ge_neg 84.9 92.5 53 (by norm_num) (by norm_num) (by norm_num) (by norm_num)

theorem cents_8241_self : |calculateCentsDeviation (82.41 : ℝ) (((82.41 : ℚ)) : ℝ)| = 0 := by
  rw [calculateCentsDeviation, show (((82.41 : ℚ)) : ℝ) = 82.41 by norm_num]
  exact absCents_self 82.41 (by norm_num)

theorem centsDev_mono_upper (f t t' : ℝ) (hf : 0 < f) (hft : f ≤ t) (htt : t ≤ t') :
    |calculateCentsDeviation f t| ≤ |calculateCentsDeviation f t'| := by
  rw [calculateCentsDeviation, calculateCentsDeviation]
  exact absCents_mono_upper f t t' hf hft htt

theorem centsDev_mono_lower (f t t' : ℝ) (ht' : 0 < t') (htt : t' ≤ t) (htf : t ≤ f) :
    |calculateCentsDeviation f t| ≤ |calculateCentsDeviation f t'| := by
  rw [calculateCentsDeviation, calculateCentsDeviation]
  exact absCents_mono_lower f t t' ht' htt htf

theorem suffix_keep_8241 : ∀ p ∈ ("F2", (87.31 : ℚ)) :: notesAfterF2,
    ¬((if p.1 ∈ guitarOpenStrings then |calculateCentsDeviation (82.41 : ℝ) ((p.2 : ℚ) : ℝ)| - 5
       else |calculateCentsDeviation (82.41 : ℝ) ((p.2 : ℚ) : ℝ)|) < 0) := by
  intro p hp
  have hge : (87.31 : ℝ) ≤ ((p.2 : ℚ) : ℝ) := notesSuf_ge p hp
  by_cases ho : p.1 ∈ guitarOpenStrings
  · rw [if_pos ho]
    have h5 : (5 : ℤ) ≤ |calculateCentsDeviation (82.41 : ℝ) ((p.2 : ℚ) : ℝ)| :=
      le_trans cents_8241_f2_ge
        (centsDev_mono_upper 82.41 87.31 ((p.2 : ℚ) : ℝ) (by norm_num) (by norm_num) hge)
    omega
  · rw [if_neg ho]
    have := abs_nonneg (calculateCentsDeviation (82.41 : ℝ) ((p.2 : ℚ) : ℝ))
    omega

theorem suffix_keep_849 : ∀ p ∈ notesAfterF2,
    ¬((if p.1 ∈ guitarOpenStrings then |calculateCentsDeviation (84.9 : ℝ) ((p.2 : ℚ) : ℝ)| - 5
       else |calculateCentsDeviation (84.9 : ℝ) ((p.2 : ℚ) : ℝ)|) < 48) := by
  intro p hp
  have hge : (92.5 : ℝ) ≤ ((p.2 : ℚ) : ℝ) := notesAfterF2_ge p hp
  have h53 : (53 : ℤ) ≤ |calculateCentsDeviation (84.9 : ℝ) ((p.2 : ℚ) : ℝ)| :=
    le_trans cents_849_fsharp2_ge
      (centsDev_mono_upper 84.9 92.5 ((p.2 : ℚ) : ℝ) (by norm_num) (by norm_num) hge)
  by_cases ho : p.1 ∈ guitarOpenStrings
  · rw [if_pos ho]; omega
  · rw [if_neg ho]; omega

theorem pre_lb_849 : ∀ p ∈ notesPre,
    (48 : ℤ) ≤ |calculateCentsDeviation (84.9 : ℝ) ((p.2 : ℚ) : ℝ)| := by
  intro p hp
  obtain ⟨hpos, hle⟩ := notesPre_bounds p hp
  exact le_trans cents_849_dsharp2_ge
    (centsDev_mono_lower 84.9 77.78 ((p.2 : ℚ) : ℝ) hpos hle (by norm_num))

theorem fcgn_8241 : findClosestGuitarNote (82.41 : ℝ) = "E2" := by
  obtain ⟨n₀, b₀, hfold, hb₀⟩ := fold_some_lb (82.41 : ℝ) 0 notesPre.tail
    (fun p _ => abs_nonneg _) "A0"
    (|calculateCentsDeviation (82.41 : ℝ) ((("A0", (27.50 : ℚ)).2 : ℚ) : ℝ)|) (abs_nonneg _)
  have hpre : List.foldl (guitarNoteStep (82.41 : ℝ)) ("", none) notesPre = (n₀, some b₀) := by
    rw [show notesPre = ("A0", (27.50 : ℚ)) :: notesPre.tail from rfl, List.foldl_cons, step_none]
    exact hfold
  have hs1 : (if ("E2", (82.41 : ℚ)).1 ∈ guitarOpenStrings then (0 : ℤ) - 5 else 0) < b₀ := by
    rw [if_pos (by decide : ("E2", (82.41 : ℚ)).1 ∈ guitarOpenStrings)]
    omega
  rw [findClosestGuitarNote, table_split, List.foldl_append, hpre, List.foldl_cons,
    step_update (82.41 : ℝ) n₀ b₀ ("E2", (82.41 : ℚ)) 0 cents_8241_self hs1,
    fold_keep_all (82.41 : ℝ) (("F2", (87.31 : ℚ)) :: notesAfterF2) "E2" 0 suffix_keep_8241]

theorem mem_notesPre_head : ("A0", (27.50 : ℚ)) ∈ notesPre := by
  rw [show notesPre = ("A0", (27.50 : ℚ)) :: notesPre.tail from rfl]
  exact List.mem_cons_self _ _

theorem mem_notesPre_tail : ∀ p ∈ notesPre.tail, p ∈ notesPre := by
  intro p hp
  rw [show notesPre = ("A0", (27.50 : ℚ)) :: notesPre.tail from rfl]
  exact List.mem_cons_of_mem _ hp

theorem fcgn_849 : findClosestGuitarNote (84.9 : ℝ) = "F2" := by
  obtain ⟨n₀, b₀, hfold, hb₀⟩ := fold_some_lb (84.9 : ℝ) 48 notesPre.tail
    (fun p hp => pre_lb_849 p (mem_notesPre_tail p hp)) "A0"
    (|calculateCentsDeviation (84.9 : ℝ) ((("A0", (27.50 : ℚ)).2 : ℚ) : ℝ)|)
    (pre_lb_849 ("A0", (27.50 : ℚ)) mem_notesPre_head)
  have hpre : List.foldl (guitarNoteStep (84.9 : ℝ)) ("", none) notesPre = (n₀, some b₀) := by
    rw [show notesPre = ("A0", (27.50 : ℚ)) :: notesPre.tail from rfl, List.foldl_cons, step_none]
    exact hfold
  have hs1 : (if ("E2", (82.41 : ℚ)).1 ∈ guitarOpenStrings then (52 : ℤ) - 5 else 52) < b₀ := by
    rw [if_pos (by decide : ("E2", (82.41 : ℚ)).1 ∈ guitarOpenStrings)]
    omega
  have hs2 : (if ("F2", (87.31 : ℚ)).1 ∈ guitarOpenStrings then (48 : ℤ) - 5 else 48) < 52 := by
    rw [if_neg (by decide : ¬(("F2", (87.31 : ℚ)).1 ∈ guitarOpenStrings))]
    omega
  rw [findClosestGuitarNote, table_split, List.foldl_append, hpre, List.foldl_cons,
    step_update (84.9 : ℝ) n₀ b₀ ("E2", (82.41 : ℚ)) 52 cents_849_e2 hs1, List.foldl_cons,
    step_update (84.9 : ℝ) "E2" 52 ("F2", (87.31 : ℚ)) 48 cents_849_f2 hs2,
    fold_keep_all (84.9 : ℝ) notesAfterF2 "F2" 48 suffix_keep_849]

/-- Claim C1, counterexample to the claim as stated: at 84.9 Hz the function
returns `"F2"`, yet the table entry `"E2"` has a strictly smaller
specification score (|cents| with the open-string bonus): 52 − 5 = 47 < 48.
The loop compares each candidate's score against the incumbent's *raw* cents
deviation (the stored `smallestDifferenceInCents` is the cents value, not the
score), so the minimum-score entry is not returned. -/
theorem C1_counterexample :
    findClosestGuitarNote (84.9 : ℝ) = "F2" ∧
    ("E2", (82.41 : ℚ)) ∈ NOTE_FREQUENCIES ∧
    specScore (84.9 : ℝ) ("E2", (82.41 : ℚ)) < specScore (84.9 : ℝ) ("F2", (87.31 : ℚ)) := by
  refine ⟨fcgn_849, ?_, ?_⟩
  · rw [table_split]
    exact List.mem_append.mpr (Or.inr (List.mem_cons_self _ _))
  · rw [specScore, specScore]
    rw [if_pos (by decide : ("E2", (82.41 : ℚ)).1 ∈ guitarOpenStrings)]
    rw [if_neg (by decide : ¬(("F2", (87.31 : ℚ)).1 ∈ guitarOpenStrings))]
    show |calculateCentsDeviation (84.9 : ℝ) (((82.41 : ℚ)) : ℝ)| - 5 <
      |calculateCentsDeviation (84.9 : ℝ) (((87.31 : ℚ)) : ℝ)|
    rw [cents_849_e2, cents_849_f2]
    omega

/-- Claim C1 (corrected): `findClosestGuitarNote` returns the result of the
left-to-right scan in which a candidate replaces the incumbent exactly when
the candidate's score (absolute cents deviation, minus 5 for one of the six
open strings) is smaller than the incumbent's stored *raw* absolute cents
deviation — the 5-cent bonus is not retained in the comparison baseline, so
the result need not minimise the score.  The particular value
`findClosestGuitarNote 82.41 = "E2"` does hold. -/
theorem C1_amended :
    (∀ f : ℝ, findClosestGuitarNote f = scanSelect f "" none NOTE_FREQUENCIES) ∧
    findClosestGuitarNote (82.41 : ℝ) = "E2" := by
  constructor
  · intro f
    rw [findClosestGuitarNote]
    exact foldl_eq_scanSelect f NOTE_FREQUENCIES "" none
  · exact fcgn_8241
